import Mathlib

/-!
Verification development for the gold-annotation alignment core of spaCy
(files src/unnamed/part_000 and src/spacy/gold/new_example.pyx).

The Python source is embedded shallowly: loops become structural
recursions, fallible statements return Except PyErr, Python dicts with
a fixed key set become records, and dicts with open key sets become
association lists over a PyVal type.  External collaborators that are
not part of the repository (the Doc object, the alignment engine, the
BILUO tag conversion routines, the string interner) are modelled from
the specification and marked as such in their doc comments.
-/

namespace Spacy

/-- Python str.isspace for the whitespace characters that occur in
tokenizer output: true iff the string is nonempty and every character
is whitespace. -/
def pyIsSpace (s : String) : Bool :=
  !s.isEmpty && s.all fun c =>
    c == ' ' || c == '\t' || c == '\n' || c == '\r' || c == '\x0b' || c == '\x0c'

/-- Python exceptions raised by the embedded functions.  keyError carries
the offending key (Errors.E983 formats the key into its message);
e980, e981 and e985 are the ValueError codes of the ambiguous-link,
link-entity-mismatch and unknown-ENT-IOB-tag errors. -/
inductive PyErr where
  | indexError
  | typeError
  | attrError
  | keyError (k : String)
  | valueIdxNotFound
  | e980
  | e981
  | e985
  deriving DecidableEq

/-- Python dict get for an association list with Nat keys (the alignment
multi maps). -/
def dictGet (d : List (Nat × Nat)) (k : Nat) : Option Nat :=
  (d.find? fun p => p.1 == k).map Prod.snd

/-- Alignment tables produced by the external align collaborator
(spec section 3): predicted index to reference index and back, plus the
two multi maps. -/
structure Alignment where
  cand_to_gold : List (Option Nat)
  gold_to_cand : List (Option Nat)
  i2j_multi : List (Nat × Nat)
  j2i_multi : List (Nat × Nat)
  deriving DecidableEq

/-- One iteration of the loop of Example.get_aligned (part_000 lines
97-106).  The source runs two consecutive if statements: the first
writes None into output i for a whitespace-only predicted token, and
the second then assigns output i again on every path, so the whitespace
write is always overwritten.  out0 and out1 model the dead intermediate
values of output i; reading predicted i can raise IndexError. -/
def getAlignedEntry (pred_texts : List String) (i2j_multi : List (Nat × Nat))
    (gold_values : List Nat) (i : Nat) (gold_i : Option Nat) :
    Except PyErr (Option Nat) := do
  let txt ← match pred_texts.get? i with
    | some t => pure t
    | none => throw PyErr.indexError
  let out0 : Option Nat := none
  let _out1 : Option Nat := if pyIsSpace txt then none else out0
  match gold_i with
  | none =>
    match dictGet i2j_multi i with
    | some j =>
      match gold_values.get? j with
      | some v => pure (some v)
      | none => throw PyErr.indexError
    | none => pure none
  | some j =>
    match gold_values.get? j with
    | some v => pure (some v)
    | none => throw PyErr.indexError

/-- The loop of Example.get_aligned over enumerate(cand_to_gold),
threading the running index. -/
def getAlignedGo (pred_texts : List String) (i2j_multi : List (Nat × Nat))
    (gold_values : List Nat) : Nat → List (Option Nat) → Except PyErr (List (Option Nat))
  | _, [] => pure []
  | i, g :: gs => do
    let v ← getAlignedEntry pred_texts i2j_multi gold_values i g
    let vs ← getAlignedGo pred_texts i2j_multi gold_values (i + 1) gs
    pure (v :: vs)

/-- Example.get_aligned (part_000 lines 86-109) on the default
as_string=False path.  gold_values is the column
reference.to_array for the requested field.  The output list is
initialised to None per predicted token and written at positions
enumerated from cand_to_gold; positions past the end of cand_to_gold
keep their initial None. -/
def get_aligned (pred_texts : List String) (a : Alignment) (gold_values : List Nat) :
    Except PyErr (List (Option Nat)) := do
  let entries ← getAlignedGo pred_texts a.i2j_multi gold_values 0 a.cand_to_gold
  pure (entries ++ List.replicate (pred_texts.length - a.cand_to_gold.length) none)

/-- State of an Example as far as the alignment property is concerned:
the two word sequences and the memoization field. -/
structure ExampleSt where
  pred_words : List String
  ref_words : List String
  alignCache : Option Alignment

/-- The Example.alignment property (part_000 lines 76-84): on a cache
miss it gathers the two word lists, substitutes the predicted words for
an empty gold word list, calls the external alignment engine (passed in
as align, spec section 6 collaborator contract) and memoizes the
result. -/
def alignmentProp (align : List String → List String → Alignment) (ex : ExampleSt) :
    Alignment × ExampleSt :=
  match ex.alignCache with
  | some a => (a, ex)
  | none =>
    let spacy_words := ex.pred_words
    let gold_words := ex.ref_words
    let gold_words2 := if gold_words == [] then spacy_words else gold_words
    let a := align spacy_words gold_words2
    (a, { ex with alignCache := some a })

/-- Python list.index(x, start): position of the first element equal to
x at index at least start, ValueError when there is none.  cur is the
index of the head of the remaining list. -/
def listIndexFrom (x : Option Nat) (start : Nat) : List (Option Nat) → Nat → Except PyErr Nat
  | [], _ => .error PyErr.valueIdxNotFound
  | y :: ys, cur =>
    if start ≤ cur ∧ y = x then .ok cur
    else listIndexFrom x start ys (cur + 1)

/-- Modelled from the spec (sections 3 and 4.4; the Doc collaborator is
outside src): the reference document carries a sentence-start flag per
token, and it is sentenced iff some flag is set. -/
def isSentenced (flags : List Bool) : Bool := flags.any id

/-- Modelled from the spec (section 4.4): the number of sentences the
reference document iterates over; the first sentence always begins at
token 0, and every further flagged position opens a new one. -/
def numSents (flags : List Bool) : Nat :=
  match flags with
  | [] => 0
  | _ :: rest => 1 + rest.count true

/-- The SENT_START column of reference.to_array: 1 at sentence starts,
0 elsewhere. -/
def sentStartCol (flags : List Bool) : List Nat :=
  flags.map fun b => if b then 1 else 0

/-- Python slice pred_texts[a:b] (clamping semantics). -/
def pySlice (xs : List String) (a b : Nat) : List String :=
  (xs.drop a).take (b - a)

/-- The per-sentence loop of Example.split_sents (part_000 lines
196-201), keeping only the predicted slices of the produced
sub-Examples: for each of k sentences, find where the next sentence
starts in the aligned sent_starts list and slice the predicted tokens
up to it. -/
def splitLoop (pred_texts : List String) (ss : List (Option Nat)) :
    Nat → Nat → Except PyErr (List (List String))
  | 0, _ => .ok []
  | k + 1, pred_start =>
    match listIndexFrom (some 1) (pred_start + 1) ss 0 with
    | .error e => .error e
    | .ok pred_end =>
      match splitLoop pred_texts ss k pred_end with
      | .error e => .error e
      | .ok rest => .ok (pySlice pred_texts pred_start pred_end :: rest)

/-- Example.split_sents (part_000 lines 185-203) restricted to the
predicted side: returns the predicted-token slices of the returned
sub-Examples.  If the reference is not sentenced the original Example
is returned whole; otherwise the aligned SENT_START column is computed,
a virtual sentence start is appended, and the slices are cut between
successive found starts. -/
def split_sents (pred_texts : List String) (a : Alignment) (flags : List Bool) :
    Except PyErr (List (List String)) :=
  if !(isSentenced flags) then .ok [pred_texts]
  else
    match get_aligned pred_texts a (sentStartCol flags) with
    | .error e => .error e
    | .ok ss => splitLoop pred_texts (ss ++ [some 1]) (numSents flags) 0

/-! Helper lemmas about the sentence-splitting loop. -/

theorem listIndexFrom_start_le (x : Option Nat) (start : Nat) :
    ∀ (ys : List (Option Nat)) (cur i : Nat),
      listIndexFrom x start ys cur = .ok i → start ≤ i := by
  intro ys
  induction ys with
  | nil => intro cur i h; simp [listIndexFrom] at h
  | cons y ys ih =>
    intro cur i h
    rw [listIndexFrom] at h
    split at h
    · rename_i hc
      cases h
      exact hc.1
    · exact ih (cur + 1) i h

theorem splitLoop_join_take (pred_texts : List String) (ss : List (Option Nat)) :
    ∀ (k p : Nat) (out : List (List String)),
      splitLoop pred_texts ss k p = .ok out →
      ∃ q, p ≤ q ∧ out.flatten = (pred_texts.drop p).take (q - p) := by
  intro k
  induction k with
  | zero =>
    intro p out h
    rw [splitLoop] at h
    cases h
    exact ⟨p, le_refl p, by simp⟩
  | succ k ih =>
    intro p out h
    rw [splitLoop] at h
    cases he : listIndexFrom (some 1) (p + 1) ss 0 with
    | error e => rw [he] at h; cases h
    | ok e =>
      rw [he] at h
      dsimp only at h
      cases hr : splitLoop pred_texts ss k e with
      | error err => rw [hr] at h; cases h
      | ok rest =>
        rw [hr] at h
        dsimp only at h
        cases h
        obtain ⟨q, hq1, hq2⟩ := ih e rest hr
        have hpe : p + 1 ≤ e := listIndexFrom_start_le (some 1) (p + 1) ss 0 e he
        refine ⟨q, by omega, ?_⟩
        have hdd : (pred_texts.drop p).drop (e - p) = pred_texts.drop e := by
          rw [List.drop_drop]
          congr 1
          omega
        have hqp : (e - p) + (q - e) = q - p := by omega
        rw [List.flatten_cons, hq2, ← hdd, pySlice, ← hqp]
        exact (List.take_add _ _ _).symm

/-- C2 counterexample: with predicted tokens A, B both multi-aligned to
the single reference token (texts "A B"), the aligned SENT_START column
is 1 at both predicted positions, so the single sentence is cut after
the first predicted token and token B is dropped: the concatenation of
the predicted slices is not the original predicted sequence. -/
theorem split_sents_drops_predicted_token :
    split_sents ["A", "B"]
      { cand_to_gold := [none, none], gold_to_cand := [none],
        i2j_multi := [(0, 0), (1, 0)], j2i_multi := [] } [true]
      = Except.ok [["A"]]
    ∧ ([["A"]] : List (List String)).flatten ≠ ["A", "B"] := by
  constructor
  · rfl
  · decide

/-- C2 (amended): the predicted slices produced by split_sents are cut
between successive found sentence starts, so their concatenation is
always a contiguous prefix of the original predicted token sequence (no
token duplicated or reordered); when the tokenizations diverge,
trailing predicted tokens can be dropped, as the counterexample
shows. -/
theorem split_sents_join_front (pred_texts : List String) (a : Alignment)
    (flags : List Bool) (out : List (List String))
    (h : split_sents pred_texts a flags = .ok out) :
    out.flatten <+: pred_texts := by
  rw [split_sents] at h
  split at h
  · cases h
    simp
  · cases hg : get_aligned pred_texts a (sentStartCol flags) with
    | error e => rw [hg] at h; cases h
    | ok ss =>
      rw [hg] at h
      obtain ⟨q, _, hq⟩ := splitLoop_join_take pred_texts (ss ++ [some 1]) (numSents flags) 0 out h
      rw [hq]
      simp only [List.drop_zero, Nat.sub_zero]
      exact List.take_prefix q pred_texts

/-- Witness for the amended C2 theorem at an aligned input: identical
tokenizations of two tokens, two sentences collapse to one slice pair
covering everything. -/
theorem split_sents_join_front_witness :
    ([["A", "B"]] : List (List String)).flatten <+: ["A", "B"] :=
  split_sents_join_front ["A", "B"]
    { cand_to_gold := [some 0, some 1], gold_to_cand := [some 0, some 1],
      i2j_multi := [], j2i_multi := [] } [true, false] [["A", "B"]] (by rfl)

/-- C1: the predicted token at index 0 is whitespace-only and carries a
1:1 alignment to reference index 0; Example.get_aligned returns the
reference value 42 there instead of the claimed None, because the
whitespace branch of the source (part_000 line 98-99) is dead code: its
None write is unconditionally overwritten by the following if/else,
which assigns on every path.  The sibling implementations
(NewExample.get_aligned and the legacy Example.get_aligned in
new_example.pyx) use elif and return None here, matching the claim. -/
theorem get_aligned_whitespace_value_not_none :
    get_aligned [" "]
      { cand_to_gold := [some 0], gold_to_cand := [some 0],
        i2j_multi := [], j2i_multi := [] } [42]
      = Except.ok [some 42] := by rfl

/-- C8: on first access with an empty reference word list, the
alignment property substitutes the predicted words for the gold words,
calls the external engine on the predicted words with themselves,
caches the result, and a second access returns the cached value
unchanged. -/
theorem alignment_empty_gold_substitution
    (align : List String → List String → Alignment) (ex : ExampleSt)
    (hempty : ex.ref_words = []) (hcache : ex.alignCache = none) :
    (alignmentProp align ex).1 = align ex.pred_words ex.pred_words
    ∧ (alignmentProp align ex).2.alignCache = some (align ex.pred_words ex.pred_words)
    ∧ alignmentProp align (alignmentProp align ex).2 = alignmentProp align ex := by
  obtain ⟨pw, rw_, c⟩ := ex
  simp only at hempty hcache
  subst hempty hcache
  simp [alignmentProp]

/-- One fixed alignment engine used to witness the alignment theorems
at a concrete input. -/
def alignBlank : List String → List String → Alignment :=
  fun a b => { cand_to_gold := a.map fun _ => none, gold_to_cand := b.map fun _ => none,
               i2j_multi := [], j2i_multi := [] }

/-- Witness for the C8 theorem at a concrete Example state with an
empty reference. -/
theorem alignment_empty_gold_substitution_witness :
    (alignmentProp alignBlank ⟨["x"], [], none⟩).1 = alignBlank ["x"] ["x"]
    ∧ (alignmentProp alignBlank ⟨["x"], [], none⟩).2.alignCache
        = some (alignBlank ["x"] ["x"])
    ∧ alignmentProp alignBlank (alignmentProp alignBlank ⟨["x"], [], none⟩).2
        = alignmentProp alignBlank ⟨["x"], [], none⟩ :=
  alignment_empty_gold_substitution alignBlank ⟨["x"], [], none⟩ rfl rfl

/-! Character-level string primitives used by the NER projection. -/

/-- First index at which nee occurs as a contiguous substring of hay
(Python str.index and str.find), none when absent; the empty needle is
found at 0. -/
def findSub (nee : List Char) : List Char → Option Nat
  | [] => if nee.isPrefixOf [] then some 0 else none
  | c :: hs =>
    if nee.isPrefixOf (c :: hs) then some 0
    else (findSub nee hs).map (· + 1)

/-- Python str.count scanning loop: fuel bounds the recursion and is
initialised to one more than the length of the text, which is enough
because every found occurrence of a nonempty needle advances the scan
by at least one character. -/
def countSubAux (nee : List Char) : Nat → List Char → Nat
  | 0, _ => 0
  | fuel + 1, hay =>
    match findSub nee hay with
    | none => 0
    | some i => 1 + countSubAux nee fuel (hay.drop (i + nee.length))

/-- Python str.count: number of non-overlapping occurrences of nee in
hay; the empty needle counts length + 1 occurrences. -/
def countSub (hay nee : List Char) : Nat :=
  if nee.isEmpty then hay.length + 1 else countSubAux nee (hay.length + 1) hay

/-! Predicted-document text and character offsets (Doc.text and
token.idx are outside src; their arithmetic follows the data model of
spec section 3: each token has text and a trailing-whitespace flag, and
offsets are the cumulative lengths). -/

/-- Character ranges (start of the token, one past the end of its text)
of the tokens of a document given as (text, trailing space) pairs. -/
def tokRangesFrom : Nat → List (String × Bool) → List (Nat × Nat)
  | _, [] => []
  | pos, t :: ts =>
    (pos, pos + t.1.length) :: tokRangesFrom (pos + t.1.length + (if t.2 then 1 else 0)) ts

/-- Character ranges of all tokens, starting at offset 0. -/
def tokRanges (x : List (String × Bool)) : List (Nat × Nat) := tokRangesFrom 0 x

/-- The document text as a character list (token texts, each followed
by one space when its trailing-space flag is set). -/
def docTextChars : List (String × Bool) → List Char
  | [] => []
  | t :: ts => t.1.data ++ (if t.2 then [' '] else []) ++ docTextChars ts

/-- Modelled from the spec (section 4.4; Doc.char_span is outside src):
the token span whose first token starts exactly at the given start
character and whose last token ends exactly at the given end character,
None when either boundary does not coincide with a token boundary. -/
def charSpan (x : List (String × Bool)) (s e : Nat) : Option (Nat × Nat) :=
  match (tokRanges x).findIdx? (fun r => r.1 == s), (tokRanges x).findIdx? (fun r => r.2 == e) with
  | some i, some j => some (i, j + 1)
  | _, _ => none

/-- Modelled from the spec (sections 4.3 and 4.4): the external
biluo_tags_from_offsets collaborator.  A token exactly covered by an
entity is tagged U, the first token of a longer entity B, the last L,
inner tokens I; a token overlapping no entity receives the missing
default; a token partially overlapping an entity receives the
no-gold-label dash. -/
def biluoFromOffsets (x : List (String × Bool)) (ents : List (Nat × Nat × String))
    (missing : String) : List String :=
  (tokRanges x).map fun r =>
    match ents.find? (fun en => en.1 ≤ r.1 && r.2 ≤ en.2.1) with
    | some en =>
      if r.1 == en.1 && r.2 == en.2.1 then "U-" ++ en.2.2
      else if r.1 == en.1 then "B-" ++ en.2.2
      else if r.2 == en.2.1 then "L-" ++ en.2.2
      else "I-" ++ en.2.2
    | none =>
      if ents.any (fun en => en.1 < r.2 && r.1 < en.2.1) then "-" else missing

/-- Shape of a reference entity span as the Doc exposes it to
get_aligned_ner: token bounds (stop exclusive, the Python ent.end), the
label, and the surface text of the span.  The reference Doc itself is
outside src, so the entity list and the per-token IOB codes are taken
as the observable inputs. -/
structure YEnt where
  start : Nat
  stop : Nat
  label : String
  text : String
  deriving DecidableEq

/-- Character-offset triple (Span.start_char, Span.end_char, label) of
a predicted-frame span given by its first and last token indices. -/
def spanOffsets (x : List (String × Bool)) (s e1 : Nat) (lab : String) : Nat × Nat × String :=
  (((tokRanges x).getD s (0, 0)).1, ((tokRanges x).getD e1 (0, 0)).2, lab)

/-- Resolution of one reference entity in Example.get_aligned_ner
(part_000 lines 132-144): direct boundary mapping through gold_to_cand
(with the Span constructor bound check), else exact-once substring
recovery through char_span, else the entity is dropped (the print
branch). -/
def nerResolveOne (x : List (String × Bool)) (g2c : List (Option Nat)) (en : YEnt) :
    Except PyErr (List (Nat × Nat × String)) :=
  match g2c.get? en.start with
  | none => .error PyErr.indexError
  | some x_start =>
    match g2c.get? (en.stop - 1) with
    | none => .error PyErr.indexError
    | some x_end =>
      match x_start, x_end with
      | some xs, some xe =>
        if xs ≤ xe + 1 ∧ xe + 1 ≤ x.length then .ok [spanOffsets x xs xe en.label]
        else .error PyErr.indexError
      | _, _ =>
        if countSub (docTextChars x) en.text.data = 1 then
          match findSub en.text.data (docTextChars x) with
          | none => .error PyErr.valueIdxNotFound
          | some start_char =>
            match charSpan x start_char (start_char + en.text.length) with
            | some sp => .ok [spanOffsets x sp.1 (sp.2 - 1) en.label]
            | none => .ok []
        else .ok []

/-- The entity loop of Example.get_aligned_ner over reference.ents. -/
def nerResolveLoop (x : List (String × Bool)) (g2c : List (Option Nat)) :
    List YEnt → Except PyErr (List (Nat × Nat × String))
  | [] => .ok []
  | en :: rest =>
    match nerResolveOne x g2c en with
    | .error e => .error e
    | .ok contrib =>
      match nerResolveLoop x g2c rest with
      | .error e => .error e
      | .ok more => .ok (contrib ++ more)

/-- The unknown-marking loop of Example.get_aligned_ner (part_000 lines
150-154): every reference token whose IOB code is 0 (entity information
never set) and that has an aligned predicted token overwrites the
predicted tag at that position with None. -/
def markUnknownGo (g2c : List (Option Nat)) :
    List Nat → Nat → List (Option String) → Except PyErr (List (Option String))
  | [], _, tags => .ok tags
  | iob :: rest, j, tags =>
    if iob = 0 then
      match g2c.get? j with
      | none => .error PyErr.indexError
      | some none => markUnknownGo g2c rest (j + 1) tags
      | some (some c) =>
        if c < tags.length then markUnknownGo g2c rest (j + 1) (tags.set c none)
        else .error PyErr.indexError
    else markUnknownGo g2c rest (j + 1) tags

/-- Example.get_aligned_ner (part_000 lines 128-155).  x is the
predicted tokenization as (text, trailing space) pairs; g2c is
alignment.gold_to_cand; y_ents and y_iob are the entity spans and the
per-token IOB codes of the reference document (0 unset, 1 I, 2 O,
3 B). -/
def get_aligned_ner (x : List (String × Bool)) (g2c : List (Option Nat))
    (y_ents : List YEnt) (y_iob : List Nat) : Except PyErr (List (Option String)) :=
  match nerResolveLoop x g2c y_ents with
  | .error e => .error e
  | .ok x_ents => markUnknownGo g2c y_iob 0 ((biluoFromOffsets x x_ents "O").map some)

/-! Helper lemmas about the unknown-marking loop. -/

theorem set_none_get : ∀ (l : List (Option String)) (c : Nat), c < l.length →
    (l.set c none).get? c = some none := by
  intro l
  induction l with
  | nil => intro c h; simp at h
  | cons a l ih =>
    intro c h
    cases c with
    | zero => simp
    | succ c => simpa using ih c (by simpa using h)

theorem set_none_keeps_none : ∀ (l : List (Option String)) (i c : Nat),
    l.get? c = some none → (l.set i none).get? c = some none := by
  intro l
  induction l with
  | nil => intro i c h; simp at h
  | cons a l ih =>
    intro i c h
    cases i with
    | zero =>
      cases c with
      | zero => simp
      | succ c => simpa using h
    | succ i =>
      cases c with
      | zero => simpa using h
      | succ c => simpa using ih i c (by simpa using h)

theorem markUnknownGo_preserves_none (g2c : List (Option Nat)) :
    ∀ (iobs : List Nat) (j : Nat) (tags out : List (Option String)) (c : Nat),
      markUnknownGo g2c iobs j tags = .ok out →
      tags.get? c = some none → out.get? c = some none := by
  intro iobs
  induction iobs with
  | nil =>
    intro j tags out c h hc
    rw [markUnknownGo] at h
    cases h
    exact hc
  | cons iob rest ih =>
    intro j tags out c h hc
    rw [markUnknownGo] at h
    split at h
    · cases hg : g2c.get? j with
      | none => rw [hg] at h; cases h
      | some o =>
        rw [hg] at h
        cases o with
        | none => exact ih (j + 1) tags out c h hc
        | some c0 =>
          dsimp only at h
          split at h
          · exact ih (j + 1) (tags.set c0 none) out c h (set_none_keeps_none tags c0 c hc)
          · cases h
    · exact ih (j + 1) tags out c h hc

theorem markUnknownGo_marks (g2c : List (Option Nat)) :
    ∀ (iobs : List Nat) (j0 : Nat) (tags out : List (Option String)) (k c : Nat),
      markUnknownGo g2c iobs j0 tags = .ok out →
      iobs.get? k = some 0 → g2c.get? (j0 + k) = some (some c) →
      out.get? c = some none := by
  intro iobs
  induction iobs with
  | nil =>
    intro j0 tags out k c _ hk
    simp at hk
  | cons iob rest ih =>
    intro j0 tags out k c h hk hc
    rw [markUnknownGo] at h
    cases k with
    | zero =>
      have hi : iob = 0 := by simpa using hk
      subst hi
      rw [if_pos rfl] at h
      have hj : g2c.get? j0 = some (some c) := by simpa using hc
      rw [hj] at h
      dsimp only at h
      split at h
      · exact markUnknownGo_preserves_none g2c rest (j0 + 1) (tags.set c none) out c h
          (set_none_get tags c (by assumption))
      · cases h
    | succ k =>
      have hk2 : rest.get? k = some 0 := by simpa using hk
      have hc2 : g2c.get? (j0 + 1 + k) = some (some c) := by
        have : j0 + (k + 1) = j0 + 1 + k := by omega
        rw [← this]
        exact hc
      split at h
      · cases hg : g2c.get? j0 with
        | none => rw [hg] at h; cases h
        | some o =>
          rw [hg] at h
          cases o with
          | none => exact ih (j0 + 1) tags out k c h hk2 hc2
          | some c0 =>
            dsimp only at h
            split at h
            · exact ih (j0 + 1) (tags.set c0 none) out k c h hk2 hc2
            · cases h
      · exact ih (j0 + 1) tags out k c h hk2 hc2

/-- C3 counterexample: reference token 0 begins the gold entity (its
IOB code is 3, B); the entity fails to resolve (the end boundary is
unaligned and its text occurs zero times in the predicted text), so it
is dropped; yet the predicted token 0 aligned to that reference token
is tagged with the explicit outside tag "O", not with the claimed
unknown None. -/
theorem get_aligned_ner_dropped_entity_outside :
    get_aligned_ner [("aa", true), ("bb", false)] [some 0, none]
      [{ start := 0, stop := 2, label := "PER", text := "zz qq" }] [3, 1]
      = Except.ok [some "O", some "O"]
    ∧ (some "O" : Option String) ≠ none := by
  exact ⟨by rfl, by decide⟩

/-- C3 (amended): the unknown marker None is placed exactly by the
final loop of get_aligned_ner, which targets predicted tokens aligned
to reference tokens whose entity annotation was never set (IOB code 0),
not tokens of entities that failed to resolve: whenever
get_aligned_ner succeeds, every reference position j with IOB code 0
and an alignment to predicted position c yields None at c.  Tokens of a
dropped entity instead receive the explicit outside default, as the
counterexample shows. -/
theorem get_aligned_ner_unset_iob_none (x : List (String × Bool))
    (g2c : List (Option Nat)) (y_ents : List YEnt) (y_iob : List Nat)
    (out : List (Option String)) (h : get_aligned_ner x g2c y_ents y_iob = .ok out)
    (j c : Nat) (hj : y_iob.get? j = some 0) (hc : g2c.get? j = some (some c)) :
    out.get? c = some none := by
  rw [get_aligned_ner] at h
  cases hr : nerResolveLoop x g2c y_ents with
  | error e => rw [hr] at h; cases h
  | ok x_ents =>
    rw [hr] at h
    dsimp only at h
    exact markUnknownGo_marks g2c y_iob 0 _ out j c h hj (by simpa using hc)

/-- Witness for the amended C3 theorem: one predicted token aligned to
a reference token with unset entity information comes out as None. -/
theorem get_aligned_ner_unset_iob_none_witness :
    get_aligned_ner [("a", false)] [some 0] [] [0] = Except.ok [none]
    ∧ ([none] : List (Option String)).get? 0 = some none := by
  refine ⟨by rfl, ?_⟩
  exact get_aligned_ner_unset_iob_none [("a", false)] [some 0] [] [0] [none]
    (by rfl) 0 0 (by rfl) (by rfl)

/-! The _parse_links embedding (part_000 lines 371-399). -/

/-- Token character bounds of the reference tokenization that
_parse_links builds from the ORTH words: Doc(vocab, words=words) with
no spaces argument gives every token a trailing space, so token k
starts at the cumulative length of the previous words plus one space
each.  Entries are (token.idx, token.idx + len(token), token.i). -/
def linkTokBounds : Nat → Nat → List String → List (Nat × Nat × Nat)
  | _, _, [] => []
  | pos, k, w :: ws => (pos, pos + w.length, k) :: linkTokBounds (pos + w.length + 1) (k + 1) ws

/-- The starts dict of _parse_links: token.idx to token.i, as dict.get
(None when the character offset is not a token start). -/
def startsGet (words : List String) (c : Nat) : Option Nat :=
  ((linkTokBounds 0 0 words).find? fun t => t.1 == c).map fun t => t.2.2

/-- The ends dict of _parse_links: token.idx + len(token) to token.i,
as dict.get. -/
def endsGet (words : List String) (c : Nat) : Option Nat :=
  ((linkTokBounds 0 0 words).find? fun t => t.2.1 == c).map fun t => t.2.2

/-- The assignment loop ent_kb_ids[i] = kb for i in
range(start_token, end_token + 1), running over the list with its
index. -/
def assignRangeGo (a b : Nat) (v : String) : Nat → List String → List String
  | _, [] => []
  | i, s :: rest => (if a ≤ i ∧ i ≤ b then v else s) :: assignRangeGo a b v (i + 1) rest

/-- Assignment of v to the inclusive index range a..b of l. -/
def assignRange (l : List String) (a b : Nat) (v : String) : List String :=
  assignRangeGo a b v 0 l

/-- true_kb_ids of _parse_links: the kb ids whose weight is exactly
1.0 (weights are modelled as rationals, so the comparison is exact as
in the source). -/
def unitIds (annot : List (String × Rat)) : List String :=
  (annot.filter fun kv => kv.2 == 1).map Prod.fst

/-- The validation loop of _parse_links (part_000 lines 379-382): every
link span must occur among the declared entity spans, else E981. -/
def parseLinksValidate (entity_map : List (Nat × Nat)) :
    List ((Nat × Nat) × List (String × Rat)) → Except PyErr Unit
  | [] => .ok ()
  | (span, _) :: rest =>
    if entity_map.contains span then parseLinksValidate entity_map rest
    else .error PyErr.e981

/-- The assignment loop of _parse_links (part_000 lines 384-397): more
than one unit-weight kb id raises E980; exactly one assigns it over the
token range found through the starts and ends dicts, where a failed
boundary lookup makes range(None, ...) raise an unhandled TypeError;
zero unit weights leave the accumulator untouched. -/
def parseLinksAssign (words : List String) :
    List ((Nat × Nat) × List (String × Rat)) → List String → Except PyErr (List String)
  | [], acc => .ok acc
  | (span, annot) :: rest, acc =>
    match unitIds annot with
    | [] => parseLinksAssign words rest acc
    | [kb] =>
      match startsGet words span.1, endsGet words span.2 with
      | some st, some en => parseLinksAssign words rest (assignRange acc st en kb)
      | _, _ => .error PyErr.typeError
    | _ :: _ :: _ => .error PyErr.e980

/-- _parse_links (part_000 lines 371-399): ent_kb_ids starts empty per
token, the entity map is the list of declared (start_char, end_char)
pairs, then validation and assignment run in order. -/
def _parse_links (words : List String) (links : List ((Nat × Nat) × List (String × Rat)))
    (entities : List (Nat × Nat × String)) : Except PyErr (List String) :=
  match parseLinksValidate (entities.map fun en => (en.1, en.2.1)) links with
  | .error e => .error e
  | .ok _ => parseLinksAssign words links (words.map fun _ => "")

/-- Resolved token range of a link entry (start token, end token,
inclusive), when both boundary lookups succeed. -/
def entRange (words : List String) (l : (Nat × Nat) × List (String × Rat)) :
    Option (Nat × Nat) :=
  match startsGet words l.1.1, endsGet words l.1.2 with
  | some st, some en => some (st, en)
  | _, _ => none

/-- Membership of token index i in the resolved token range of a link
entry; false when the range does not resolve. -/
def inRange (words : List String) (l : (Nat × Nat) × List (String × Rat)) (i : Nat) : Bool :=
  match entRange words l with
  | some r => decide (r.1 ≤ i) && decide (i ≤ r.2)
  | none => false

/-- Disjointness of the resolved token ranges of two link entries;
vacuously true when either does not resolve. -/
def rangesDisjoint (words : List String) (l1 l2 : (Nat × Nat) × List (String × Rat)) : Bool :=
  match entRange words l1, entRange words l2 with
  | some r1, some r2 => decide (r1.2 < r2.1) || decide (r2.2 < r1.1)
  | _, _ => true

/-! Helper lemmas about the _parse_links loops. -/

theorem assignRangeGo_get (a b : Nat) (v : String) :
    ∀ (l : List String) (i0 k : Nat),
      (assignRangeGo a b v i0 l).get? k
        = (l.get? k).map fun s => if a ≤ i0 + k ∧ i0 + k ≤ b then v else s := by
  intro l
  induction l with
  | nil => intro i0 k; simp [assignRangeGo]
  | cons s rest ih =>
    intro i0 k
    cases k with
    | zero => simp [assignRangeGo]
    | succ k =>
      rw [assignRangeGo, List.get?_cons_succ, List.get?_cons_succ, ih (i0 + 1) k]
      have harith : i0 + 1 + k = i0 + (k + 1) := by omega
      rw [harith]

theorem assignRange_get_out (l : List String) (a b : Nat) (v : String) (k : Nat)
    (h : ¬(a ≤ k ∧ k ≤ b)) : (assignRange l a b v).get? k = l.get? k := by
  rw [assignRange, assignRangeGo_get]
  simp only [Nat.zero_add]
  cases l.get? k with
  | none => rfl
  | some s => dsimp only [Option.map]; rw [if_neg h]

theorem assignRange_get_in (l : List String) (a b : Nat) (v : String) (k : Nat)
    (h : a ≤ k ∧ k ≤ b) (hk : k < l.length) : (assignRange l a b v).get? k = some v := by
  rw [assignRange, assignRangeGo_get]
  simp only [Nat.zero_add]
  cases hg : l.get? k with
  | none => rw [List.get?_eq_none] at hg; omega
  | some s => dsimp only [Option.map]; rw [if_pos h]

theorem assignRangeGo_length (a b : Nat) (v : String) :
    ∀ (l : List String) (i0 : Nat), (assignRangeGo a b v i0 l).length = l.length := by
  intro l
  induction l with
  | nil => intro i0; rfl
  | cons s rest ih => intro i0; simp [assignRangeGo, ih]

theorem assignRange_length (l : List String) (a b : Nat) (v : String) :
    (assignRange l a b v).length = l.length :=
  assignRangeGo_length a b v l 0

theorem linkTokBounds_idx_lt :
    ∀ (ws : List String) (pos k : Nat) (t : Nat × Nat × Nat),
      t ∈ linkTokBounds pos k ws → t.2.2 < k + ws.length := by
  intro ws
  induction ws with
  | nil => intro pos k t h; simp [linkTokBounds] at h
  | cons w rest ih =>
    intro pos k t h
    rw [linkTokBounds] at h
    rcases List.mem_cons.mp h with h1 | h2
    · subst h1; simp
    · have h3 := ih _ (k + 1) t h2
      have h4 : (w :: rest).length = rest.length + 1 := rfl
      omega

theorem endsGet_lt (words : List String) (c en : Nat) (h : endsGet words c = some en) :
    en < words.length := by
  rw [endsGet] at h
  cases hf : (linkTokBounds 0 0 words).find? (fun t => t.2.1 == c) with
  | none => rw [hf] at h; simp at h
  | some t =>
    rw [hf] at h
    dsimp only [Option.map] at h
    injection h with h2
    have hm : t ∈ linkTokBounds 0 0 words := List.mem_of_find?_eq_some hf
    have := linkTokBounds_idx_lt words 0 0 t hm
    omega

theorem parseLinksValidate_ok (em : List (Nat × Nat)) :
    ∀ ls, (∀ l ∈ ls, (em.contains l.1) = true) → parseLinksValidate em ls = .ok () := by
  intro ls
  induction ls with
  | nil => intro; rfl
  | cons l rest ih =>
    intro hall
    obtain ⟨span, annot⟩ := l
    rw [parseLinksValidate]
    rw [if_pos (hall ⟨span, annot⟩ (List.mem_cons_self _ _))]
    exact ih fun l hl => hall l (List.mem_cons_of_mem _ hl)

theorem parseLinksValidate_mismatch (em : List (Nat × Nat)) :
    ∀ ls, (∃ l ∈ ls, (em.contains l.1) = false) → parseLinksValidate em ls = .error PyErr.e981 := by
  intro ls
  induction ls with
  | nil => intro h; simp at h
  | cons l rest ih =>
    intro h
    obtain ⟨span, annot⟩ := l
    rw [parseLinksValidate]
    by_cases hc : (em.contains span) = true
    · rw [if_pos hc]
      apply ih
      obtain ⟨w, hw, hwf⟩ := h
      rcases List.mem_cons.mp hw with h1 | h2
      · subst h1; dsimp only at hwf; rw [hwf] at hc; cases hc
      · exact ⟨w, h2, hwf⟩
    · rw [if_neg hc]

theorem parseLinksAssign_untouched (words : List String) :
    ∀ (ls : List ((Nat × Nat) × List (String × Rat))) (acc res : List String) (i : Nat),
      parseLinksAssign words ls acc = .ok res →
      (∀ l ∈ ls, ∀ kb, unitIds l.2 = [kb] → inRange words l i = false) →
      res.get? i = acc.get? i := by
  intro ls
  induction ls with
  | nil =>
    intro acc res i h _
    rw [parseLinksAssign] at h
    cases h
    rfl
  | cons l rest ih =>
    intro acc res i h hun
    obtain ⟨span, annot⟩ := l
    rw [parseLinksAssign] at h
    cases hu : unitIds annot with
    | nil =>
      rw [hu] at h
      exact ih acc res i h fun l hl => hun l (List.mem_cons_of_mem _ hl)
    | cons kb tail =>
      cases tail with
      | nil =>
        rw [hu] at h
        cases hs : startsGet words span.1 with
        | none => rw [hs] at h; dsimp only at h; cases h
        | some st =>
          cases he : endsGet words span.2 with
          | none => rw [hs, he] at h; dsimp only at h; cases h
          | some en =>
            rw [hs, he] at h
            dsimp only at h
            have hhead : inRange words (span, annot) i = false :=
              hun (span, annot) (List.mem_cons_self _ _) kb hu
            have hcond : ¬(st ≤ i ∧ i ≤ en) := by
              rw [inRange, entRange, hs, he] at hhead
              dsimp only at hhead
              intro hc
              rw [decide_eq_true hc.1, decide_eq_true hc.2] at hhead
              cases hhead
            have hrest := ih (assignRange acc st en kb) res i h
              fun l hl => hun l (List.mem_cons_of_mem _ hl)
            rw [hrest, assignRange_get_out acc st en kb i hcond]
      | cons kb2 tail2 =>
        rw [hu] at h
        cases h

theorem parseLinksAssign_assigns (words : List String) :
    ∀ (ls : List ((Nat × Nat) × List (String × Rat))) (acc res : List String),
      acc.length = words.length →
      ls.Pairwise (fun l1 l2 => (unitIds l1.2).length = 1 → (unitIds l2.2).length = 1 →
        rangesDisjoint words l1 l2 = true) →
      parseLinksAssign words ls acc = .ok res →
      ∀ l ∈ ls, ∀ kb, unitIds l.2 = [kb] → ∀ i, inRange words l i = true →
        res.get? i = some kb := by
  intro ls
  induction ls with
  | nil =>
    intro acc res _ _ _ l hl
    simp at hl
  | cons hd rest ih =>
    intro acc res hlen hpair h l hl kb hkb i hin
    obtain ⟨span, annot⟩ := hd
    rw [List.pairwise_cons] at hpair
    obtain ⟨hhead, hrestpair⟩ := hpair
    rw [parseLinksAssign] at h
    cases hu : unitIds annot with
    | nil =>
      rw [hu] at h
      rcases List.mem_cons.mp hl with h1 | h2
      · rw [h1] at hkb; dsimp only at hkb; rw [hkb] at hu; cases hu
      · exact ih acc res hlen hrestpair h l h2 kb hkb i hin
    | cons kb0 tail =>
      cases tail with
      | nil =>
        rw [hu] at h
        cases hs : startsGet words span.1 with
        | none => rw [hs] at h; dsimp only at h; cases h
        | some st =>
          cases he : endsGet words span.2 with
          | none => rw [hs, he] at h; dsimp only at h; cases h
          | some en =>
            rw [hs, he] at h
            dsimp only at h
            rcases List.mem_cons.mp hl with h1 | h2
            · -- the current entry is the one being read off
              have hkb0 : kb = kb0 := by
                rw [h1] at hkb; dsimp only at hkb; rw [hkb] at hu
                simpa using hu
              subst hkb0
              have hcond : st ≤ i ∧ i ≤ en := by
                rw [h1, inRange, entRange, hs, he] at hin
                dsimp only at hin
                constructor
                · exact of_decide_eq_true (Bool.and_elim_left hin)
                · exact of_decide_eq_true (Bool.and_elim_right hin)
              have hi_lt : i < acc.length := by
                have := endsGet_lt words span.2 en he
                omega
              have hacc2 : (assignRange acc st en kb).get? i = some kb :=
                assignRange_get_in acc st en kb i hcond hi_lt
              have huntouched : ∀ l2 ∈ rest, ∀ kb2, unitIds l2.2 = [kb2] →
                  inRange words l2 i = false := by
                intro l2 hl2 kb2 hkb2
                have hd2 := hhead l2 hl2 (by rw [hu]; rfl) (by rw [hkb2]; rfl)
                rw [rangesDisjoint, entRange, hs, he] at hd2
                dsimp only at hd2
                rw [inRange]
                cases hr2 : entRange words l2 with
                | none => rfl
                | some r2 =>
                  rw [hr2] at hd2
                  dsimp only
                  rcases Bool.or_eq_true_iff.mp hd2 with hlt | hlt
                  · have : r2.1 > en := of_decide_eq_true hlt
                    have : ¬(r2.1 ≤ i) := by omega
                    rw [decide_eq_false this]
                    rfl
                  · have : r2.2 < st := of_decide_eq_true hlt
                    have hni : ¬(i ≤ r2.2) := by omega
                    rw [decide_eq_false hni]
                    exact Bool.and_false _
              have := parseLinksAssign_untouched words rest (assignRange acc st en kb)
                res i h huntouched
              rw [this, hacc2]
            · exact ih (assignRange acc st en kb0) res
                (by rw [assignRange_length]; exact hlen) hrestpair h l h2 kb hkb i hin
      | cons kb2 tail2 =>
        rw [hu] at h
        cases h

theorem parseLinksAssign_ambiguous (words : List String) :
    ∀ (ls : List ((Nat × Nat) × List (String × Rat))) (acc : List String),
      (∀ l ∈ ls, (unitIds l.2).length = 1 → (entRange words l).isSome = true) →
      (∃ l ∈ ls, 2 ≤ (unitIds l.2).length) →
      parseLinksAssign words ls acc = .error PyErr.e980 := by
  intro ls
  induction ls with
  | nil => intro acc _ h; simp at h
  | cons hd rest ih =>
    intro acc hbound hex
    obtain ⟨span, annot⟩ := hd
    rw [parseLinksAssign]
    cases hu : unitIds annot with
    | nil =>
      apply ih acc (fun l hl => hbound l (List.mem_cons_of_mem _ hl))
      obtain ⟨w, hw, hw2⟩ := hex
      rcases List.mem_cons.mp hw with h1 | h2
      · rw [h1] at hw2; dsimp only at hw2; rw [hu] at hw2; simp at hw2
      · exact ⟨w, h2, hw2⟩
    | cons kb tail =>
      cases tail with
      | nil =>
        have hsome : (entRange words (span, annot)).isSome = true :=
          hbound (span, annot) (List.mem_cons_self _ _) (by rw [hu]; rfl)
        cases hs : startsGet words span.1 with
        | none => rw [entRange, hs] at hsome; dsimp only at hsome; cases hsome
        | some st =>
          cases he : endsGet words span.2 with
          | none => rw [entRange, hs, he] at hsome; dsimp only at hsome; cases hsome
          | some en =>
            dsimp only
            apply ih _ (fun l hl => hbound l (List.mem_cons_of_mem _ hl))
            obtain ⟨w, hw, hw2⟩ := hex
            rcases List.mem_cons.mp hw with h1 | h2
            · rw [h1] at hw2; dsimp only at hw2; rw [hu] at hw2; simp at hw2
            · exact ⟨w, h2, hw2⟩
      | cons kb2 tail2 => rfl

theorem parseLinksAssign_badBound (words : List String) :
    ∀ (ls : List ((Nat × Nat) × List (String × Rat))) (acc : List String),
      (∀ l ∈ ls, (unitIds l.2).length ≤ 1) →
      (∃ l ∈ ls, (unitIds l.2).length = 1 ∧ (entRange words l).isSome = false) →
      parseLinksAssign words ls acc = .error PyErr.typeError := by
  intro ls
  induction ls with
  | nil => intro acc _ h; simp at h
  | cons hd rest ih =>
    intro acc hone hex
    obtain ⟨span, annot⟩ := hd
    rw [parseLinksAssign]
    cases hu : unitIds annot with
    | nil =>
      apply ih acc (fun l hl => hone l (List.mem_cons_of_mem _ hl))
      obtain ⟨w, hw, hw1, hw2⟩ := hex
      rcases List.mem_cons.mp hw with h1 | h2
      · rw [h1] at hw1; dsimp only at hw1; rw [hu] at hw1; simp at hw1
      · exact ⟨w, h2, hw1, hw2⟩
    | cons kb tail =>
      cases tail with
      | nil =>
        cases hre : entRange words (span, annot) with
        | none =>
          cases hs : startsGet words span.1 with
          | none => rfl
          | some st =>
            cases he : endsGet words span.2 with
            | none => rfl
            | some en => simp [entRange, hs, he] at hre
        | some r =>
          cases hs : startsGet words span.1 with
          | none => simp [entRange, hs] at hre
          | some st =>
            cases he : endsGet words span.2 with
            | none => simp [entRange, hs, he] at hre
            | some en =>
              apply ih _ (fun l hl => hone l (List.mem_cons_of_mem _ hl))
              obtain ⟨w, hw, hw1, hw2⟩ := hex
              rcases List.mem_cons.mp hw with h1 | h2
              · rw [h1, hre] at hw2; simp at hw2
              · exact ⟨w, h2, hw1, hw2⟩
      | cons kb2 tail2 =>
        have := hone (span, annot) (List.mem_cons_self _ _)
        rw [hu] at this
        simp at this

/-- C5: for a well-formed call (every link span among the declared
entity spans, resolvable token boundaries for every entry with exactly
one unit-weight kb id, and pairwise disjoint token ranges of such
entries), _parse_links raises the ambiguous-link error E980 as soon as
some entry has more than one kb id of weight exactly 1.0; and when it
succeeds, every entry with exactly one unit-weight kb id has that id
written over every token index its entity spans, while tokens spanned
by no such entry keep the empty ENT_KB_ID. -/
theorem parse_links_unit_weight (words : List String)
    (links : List ((Nat × Nat) × List (String × Rat)))
    (entities : List (Nat × Nat × String))
    (hval : ∀ l ∈ links, ((entities.map fun en => (en.1, en.2.1)).contains l.1) = true)
    (hbound : ∀ l ∈ links, (unitIds l.2).length = 1 → (entRange words l).isSome = true)
    (hdisj : links.Pairwise fun l1 l2 => (unitIds l1.2).length = 1 →
      (unitIds l2.2).length = 1 → rangesDisjoint words l1 l2 = true) :
    ((∃ l ∈ links, 2 ≤ (unitIds l.2).length) →
        _parse_links words links entities = .error PyErr.e980)
    ∧ ∀ res, _parse_links words links entities = .ok res →
        (∀ l ∈ links, ∀ kb, unitIds l.2 = [kb] → ∀ i, inRange words l i = true →
          res.get? i = some kb)
        ∧ ∀ i, i < words.length →
            (∀ l ∈ links, ∀ kb, unitIds l.2 = [kb] → inRange words l i = false) →
            res.get? i = some "" := by
  have hvok := parseLinksValidate_ok (entities.map fun en => (en.1, en.2.1)) links hval
  constructor
  · intro hex
    rw [_parse_links, hvok]
    exact parseLinksAssign_ambiguous words links _ hbound hex
  · intro res hres
    rw [_parse_links, hvok] at hres
    constructor
    · exact parseLinksAssign_assigns words links _ res (by simp) hdisj hres
    · intro i hi hfree
      have := parseLinksAssign_untouched words links _ res i hres hfree
      rw [this, List.get?_map]
      cases hg : words.get? i with
      | none => rw [List.get?_eq_none] at hg; omega
      | some w => rfl

/-- Witness for the C5 theorem: two links over a two-token text, one
with a unique unit weight (assigned), one with a non-unit weight (left
empty). -/
theorem parse_links_unit_weight_witness :
    _parse_links ["ab", "cd"]
      [((0, 2), [("Q1", (1 : Rat))]), ((3, 5), [("Q2", (0 : Rat))])]
      [(0, 2, "X"), (3, 5, "Y")] = Except.ok ["Q1", ""]
    ∧ (["Q1", ""] : List String).get? 0 = some "Q1"
    ∧ (["Q1", ""] : List String).get? 1 = some "" := by
  have hmain := parse_links_unit_weight ["ab", "cd"]
    [((0, 2), [("Q1", (1 : Rat))]), ((3, 5), [("Q2", (0 : Rat))])]
    [(0, 2, "X"), (3, 5, "Y")]
    (by decide) (by decide)
    (by
      rw [List.pairwise_cons]
      refine ⟨?_, ?_⟩
      · intro l2 hl2 _ h2
        simp only [List.mem_singleton] at hl2
        subst hl2
        simp [unitIds] at h2
      · rw [List.pairwise_cons]
        exact ⟨fun l2 hl2 => by simp at hl2, List.Pairwise.nil⟩)
  have hok : _parse_links ["ab", "cd"]
      [((0, 2), [("Q1", (1 : Rat))]), ((3, 5), [("Q2", (0 : Rat))])]
      [(0, 2, "X"), (3, 5, "Y")] = Except.ok ["Q1", ""] := by rfl
  refine ⟨hok, ?_, ?_⟩
  · exact (hmain.2 ["Q1", ""] hok).1 ((0, 2), [("Q1", (1 : Rat))])
      (List.mem_cons_self _ _) "Q1" (by decide) 0 (by decide)
  · refine (hmain.2 ["Q1", ""] hok).2 1 (by decide) ?_
    intro l hl kb hkb
    rcases List.mem_cons.mp hl with h1 | h2
    · subst h1; decide
    · simp only [List.mem_singleton] at h2
      subst h2
      dsimp only [unitIds] at hkb
      simp at hkb

/-- C10: under the two documented validations (all link spans declared,
no entry ambiguous), an entry with exactly one unit-weight kb id whose
start or end character offset is not a token boundary of the reference
tokenization makes _parse_links fail with the unhandled TypeError of
range(None, ...), which is neither E981 nor E980: token-boundary
offsets are a precondition of successful link encoding. -/
theorem parse_links_nonboundary_type_error (words : List String)
    (links : List ((Nat × Nat) × List (String × Rat)))
    (entities : List (Nat × Nat × String))
    (hval : ∀ l ∈ links, ((entities.map fun en => (en.1, en.2.1)).contains l.1) = true)
    (hone : ∀ l ∈ links, (unitIds l.2).length ≤ 1)
    (hbad : ∃ l ∈ links, (unitIds l.2).length = 1 ∧ (entRange words l).isSome = false) :
    _parse_links words links entities = .error PyErr.typeError := by
  rw [_parse_links, parseLinksValidate_ok (entities.map fun en => (en.1, en.2.1)) links hval]
  exact parseLinksAssign_badBound words links _ hone hbad

/-- Witness for the C10 theorem: the link span (0, 1) matches the
declared entity but 1 is not a token end of the one-token text "ab"
(its end boundary is 2), so encoding fails with the TypeError. -/
theorem parse_links_nonboundary_type_error_witness :
    _parse_links ["ab"] [((0, 1), [("Q", (1 : Rat))])] [(0, 1, "X")]
      = Except.error PyErr.typeError :=
  parse_links_nonboundary_type_error ["ab"] [((0, 1), [("Q", (1 : Rat))])] [(0, 1, "X")]
    (by decide) (by decide) (by decide)

/-! The annotation encoder: records for the canonical bundles, the
string interner model, and the two _annot2array variants. -/

/-- Modelled from the spec (section 6 collaborator contract: the
string and morphology interners map a value to a stable numeric id and
back).  The empty string is pre-interned at id 0, matching the
behaviour that unset string attributes read back as the empty
string. -/
structure StringStore where
  strs : List String
  deriving DecidableEq

/-- The store of a fresh vocab. -/
def StringStore.init : StringStore := ⟨[""]⟩

/-- Interning: an already known string keeps its id, a new string is
appended and receives the next id. -/
def StringStore.add (st : StringStore) (v : String) : StringStore × Nat :=
  match st.strs.findIdx? (fun s => s == v) with
  | some i => (st, i)
  | none => (⟨st.strs ++ [v]⟩, st.strs.length)

/-- Lookup of an id. -/
def StringStore.get (st : StringStore) (i : Nat) : Option String := st.strs.get? i

/-- The vocab: the shared string interner plus the morphology
interner. -/
structure Vocab where
  strings : StringStore
  morph : StringStore
  deriving DecidableEq

/-- A fresh vocab. -/
def Vocab.init : Vocab := ⟨StringStore.init, StringStore.init⟩

/-- Interning a column of strings left to right, threading the store;
ids are produced as integers because the encoder columns also hold the
signed HEAD offsets. -/
def internList (st : StringStore) : List String → StringStore × List Int
  | [] => (st, [])
  | v :: vs =>
    let p := st.add v
    let q := internList p.1 vs
    (q.1, Int.ofNat p.2 :: q.2)

/-- Canonical token annotations after the normalizer remap, as a
record over the fixed canonical keys; none is an absent key.  ORTH and
SPACY are required because part_000 annotations2doc assumes them.  The
open-key behaviour of the dict normalizer (unknown keys, falsy values)
is embedded separately over PyVal association lists below. -/
structure TokAnnot where
  orth : List String
  spacy : List Bool
  tag : Option (List String) := none
  pos : Option (List String) := none
  lem : Option (List String) := none
  dep : Option (List String) := none
  morph : Option (List String) := none
  head : Option (List Nat) := none
  sent_start : Option (List Int) := none
  ent_iob : Option (List String) := none
  ent_type : Option (List String) := none
  ent_kb_id : Option (List String) := none
  deriving DecidableEq

/-- Document annotations: cats, the declared entities (in character
offset form, the representation the claims exercise), and links. -/
structure DocAnnot where
  cats : List (String × Rat) := []
  entities : Option (List (Nat × Nat × String)) := none
  links : List ((Nat × Nat) × List (String × Rat)) := []
  deriving DecidableEq

/-- The doc-annotation loop of part_000 _annot2array (lines 220-233)
over the record fields: falsy values are skipped entirely; entities
and cats pass; a truthy links value first checks that entities are
declared (E981 otherwise) and then runs _parse_links, storing the
resulting ENT_KB_ID column in the token annotations. -/
def annot2arrayDocLoop (tok : TokAnnot) (doc : DocAnnot) : Except PyErr TokAnnot :=
  if doc.links ≠ [] then
    match doc.entities.getD [] with
    | [] => .error PyErr.e981
    | e0 :: es =>
      match _parse_links tok.orth doc.links (e0 :: es) with
      | .error e => .error e
      | .ok kb => .ok { tok with ent_kb_id := some kb }
  else .ok tok

/-- One step of the token-attribute loop: a present string column is
interned (through the morphology store for MORPH, the string store
otherwise) and appended to the attribute and column lists. -/
def tokLoopStep (acc : Vocab × List String × List (List Int))
    (name : String) (col : Option (List String)) (useMorph : Bool) :
    Vocab × List String × List (List Int) :=
  match col with
  | none => acc
  | some vs =>
    if useMorph then
      let p := internList acc.1.morph vs
      ({ acc.1 with morph := p.1 }, acc.2.1 ++ [name], acc.2.2 ++ [p.2])
    else
      let p := internList acc.1.strings vs
      ({ acc.1 with strings := p.1 }, acc.2.1 ++ [name], acc.2.2 ++ [p.2])

/-- The token-attribute loop of part_000 _annot2array (lines 235-254)
over the record fields in a fixed order (the source iterates the dict
in insertion order; the order only influences which numeric ids are
handed out).  ORTH and SPACY pass; HEAD is stored as the signed offset
h - i; SENT_START passes through unchanged; MORPH goes through the
morphology interner; every other present field, including ENT_IOB, is
interned as an ordinary string column.  Unknown keys cannot occur at
the record level. -/
def annot2arrayTokLoop (voc : Vocab) (t : TokAnnot) :
    Vocab × List String × List (List Int) :=
  let acc0 : Vocab × List String × List (List Int) := (voc, [], [])
  let acc1 := tokLoopStep acc0 "TAG" t.tag false
  let acc2 := tokLoopStep acc1 "POS" t.pos false
  let acc3 := tokLoopStep acc2 "LEMMA" t.lem false
  let acc4 := tokLoopStep acc3 "DEP" t.dep false
  let acc5 := tokLoopStep acc4 "MORPH" t.morph true
  let acc6 :=
    match t.head with
    | none => acc5
    | some hs =>
      (acc5.1, acc5.2.1 ++ ["HEAD"],
        acc5.2.2 ++ [hs.enum.map fun p => (p.2 : Int) - (p.1 : Int)])
  let acc7 :=
    match t.sent_start with
    | none => acc6
    | some ss => (acc6.1, acc6.2.1 ++ ["SENT_START"], acc6.2.2 ++ [ss])
  let acc8 := tokLoopStep acc7 "ENT_IOB" t.ent_iob false
  let acc9 := tokLoopStep acc8 "ENT_TYPE" t.ent_type false
  tokLoopStep acc9 "ENT_KB_ID" t.ent_kb_id false

/-- _annot2array of part_000 (lines 216-254) at the record level: the
doc loop (which may rewrite ENT_KB_ID or fail) followed by the token
loop building the attribute names and integer columns.  Building the
numpy array and transposing it is inverted by Doc.from_array, so the
pair of attribute names and columns is the output of this model. -/
def _annot2array (voc : Vocab) (tok : TokAnnot) (doc : DocAnnot) :
    Except PyErr (Vocab × List String × List (List Int)) :=
  match annot2arrayDocLoop tok doc with
  | .error e => .error e
  | .ok tok2 => .ok (annot2arrayTokLoop voc tok2)

/-- Success test on an embedded Python computation. -/
def exceptOk {α : Type} : Except PyErr α → Bool
  | .ok _ => true
  | .error _ => false

/-- Modelled from the spec (section 4.2): the fixed IOB enumeration
returned by Token.iob_strings (the Token class is outside src). -/
def iobStrings : List String := ["", "I", "O", "B"]

/-- The ENT_IOB branch of the NewExample _annot2array
(new_example.pyx lines 180-186): each raw tag is looked up in the
fixed IOB enumeration; a value that is missing from it raises E985. -/
def entIobIds : List String → Except PyErr (List Int)
  | [] => .ok []
  | v :: vs =>
    match iobStrings.findIdx? (fun s => s == v) with
    | none => .error PyErr.e985
    | some i =>
      match entIobIds vs with
      | .error e => .error e
      | .ok rest => .ok ((i : Int) :: rest)

/-- The token-attribute loop of the NewExample _annot2array
(new_example.pyx lines 166-189) over the record fields, in the same
fixed order as the part_000 loop (canonical NewExample bundles carry
no SPACY key, so the spacy field is not consulted).  The one
behavioural difference to the part_000 loop is the claim-relevant one:
ENT_IOB values are validated against the fixed IOB enumeration and an
out-of-enumeration value raises E985 instead of being interned. -/
def newExampleTokLoop (voc : Vocab) (t : TokAnnot) :
    Except PyErr (Vocab × List String × List (List Int)) :=
  let acc0 : Vocab × List String × List (List Int) := (voc, [], [])
  let acc1 := tokLoopStep acc0 "TAG" t.tag false
  let acc2 := tokLoopStep acc1 "POS" t.pos false
  let acc3 := tokLoopStep acc2 "LEMMA" t.lem false
  let acc4 := tokLoopStep acc3 "DEP" t.dep false
  let acc5 := tokLoopStep acc4 "MORPH" t.morph true
  let acc6 :=
    match t.head with
    | none => acc5
    | some hs =>
      (acc5.1, acc5.2.1 ++ ["HEAD"],
        acc5.2.2 ++ [hs.enum.map fun p => (p.2 : Int) - (p.1 : Int)])
  let acc7 :=
    match t.sent_start with
    | none => acc6
    | some ss => (acc6.1, acc6.2.1 ++ ["SENT_START"], acc6.2.2 ++ [ss])
  match t.ent_iob with
  | none =>
    let acc9 := tokLoopStep acc7 "ENT_TYPE" t.ent_type false
    .ok (tokLoopStep acc9 "ENT_KB_ID" t.ent_kb_id false)
  | some vs =>
    match entIobIds vs with
    | .error e => .error e
    | .ok col =>
      let acc8 := (acc7.1, acc7.2.1 ++ ["ENT_IOB"], acc7.2.2 ++ [col])
      let acc9 := tokLoopStep acc8 "ENT_TYPE" t.ent_type false
      .ok (tokLoopStep acc9 "ENT_KB_ID" t.ent_kb_id false)

/-- C6: encoding annotations whose links are non-empty fails with the
link-entity-mismatch error E981 whenever the declared entities are
empty or absent (the check before any arrays are built, part_000 lines
224-227), and whenever some link span is not among the declared entity
spans (the _parse_links validation loop); in neither case is the entry
silently ignored, and no attribute columns are produced. -/
theorem annot2array_links_mismatch (voc : Vocab) (tok : TokAnnot) (doc : DocAnnot)
    (hne : doc.links ≠ []) :
    (doc.entities.getD [] = [] → _annot2array voc tok doc = .error PyErr.e981)
    ∧ ∀ l ∈ doc.links,
        (((doc.entities.getD []).map fun en => (en.1, en.2.1)).contains l.1) = false →
        _annot2array voc tok doc = .error PyErr.e981 := by
  constructor
  · intro hemp
    rw [_annot2array, annot2arrayDocLoop, if_pos hne, hemp]
  · intro l hl hcont
    rw [_annot2array, annot2arrayDocLoop, if_pos hne]
    cases hes : doc.entities.getD [] with
    | nil => rfl
    | cons e0 es =>
      have hmis : _parse_links tok.orth doc.links (e0 :: es) = .error PyErr.e981 := by
        rw [_parse_links,
          parseLinksValidate_mismatch (((e0 :: es)).map fun en => (en.1, en.2.1))
            doc.links ⟨l, hl, by rw [← hes]; exact hcont⟩]
      dsimp only
      rw [hmis]

/-- Witness for the C6 theorem: a non-empty links value with no
declared entities fails with E981 before any encoding happens. -/
theorem annot2array_links_mismatch_witness :
    _annot2array Vocab.init { orth := ["a"], spacy := [false] }
      { entities := none, links := [((0, 1), [("Q", (1 : Rat))])] }
      = Except.error PyErr.e981 :=
  (annot2array_links_mismatch Vocab.init { orth := ["a"], spacy := [false] }
    { entities := none, links := [((0, 1), [("Q", (1 : Rat))])] }
    (by simp)).1 (by rfl)

/-- C7 counterexample: the part_000 encoder (the one Example.from_dict
uses) has no ENT_IOB branch in its token loop, so the out-of-
enumeration tag "J" does not fail with the unknown-tag error E985: the
encoding succeeds, and "J" is interned as an ordinary string id (id 1
of the fresh store) in an ordinary ENT_IOB column. -/
theorem annot2array_ent_iob_not_validated :
    _annot2array Vocab.init { orth := ["a"], spacy := [false], ent_iob := some ["J"] } {}
      = Except.ok
          ({ strings := { strs := ["", "J"] }, morph := StringStore.init },
            ["ENT_IOB"], [[1]])
    ∧ "J" ∉ iobStrings := by
  refine ⟨?_, ?_⟩
  · rfl
  · decide

theorem entIobIds_err :
    ∀ (vs : List String), (∃ v ∈ vs, iobStrings.findIdx? (fun s => s == v) = none) →
      entIobIds vs = .error PyErr.e985 := by
  intro vs
  induction vs with
  | nil => intro h; simp at h
  | cons v rest ih =>
    intro h
    rw [entIobIds]
    cases hf : iobStrings.findIdx? (fun s => s == v) with
    | none => rfl
    | some i =>
      obtain ⟨w, hw, hwf⟩ := h
      rcases List.mem_cons.mp hw with h1 | h2
      · subst h1; rw [hf] at hwf; cases hwf
      · rw [ih ⟨w, h2, hwf⟩]

theorem findIdx_iob_none (v : String) (h : v ∉ iobStrings) :
    iobStrings.findIdx? (fun s => s == v) = none := by
  rw [List.findIdx?_eq_none_iff]
  intro x hx
  rw [beq_eq_false_iff_ne]
  intro he
  exact h (he ▸ hx)

/-- C7 (amended): only the NewExample encoder of new_example.pyx
validates ENT_IOB: there, a token bundle whose ENT_IOB column holds a
value outside the fixed IOB enumeration makes the token loop fail with
the unknown-tag error E985; the part_000 encoder interns such values
as ordinary string ids without any validation, as the counterexample
shows. -/
theorem newexample_ent_iob_validated (voc : Vocab) (t : TokAnnot)
    (vs : List String) (hvs : t.ent_iob = some vs)
    (hbad : ∃ v ∈ vs, v ∉ iobStrings) :
    newExampleTokLoop voc t = .error PyErr.e985 := by
  obtain ⟨v, hv, hvn⟩ := hbad
  have hids := entIobIds_err vs ⟨v, hv, findIdx_iob_none v hvn⟩
  simp only [newExampleTokLoop, hvs, hids]

/-- Witness for the amended C7 theorem: the NewExample token loop
rejects the ENT_IOB value "X". -/
theorem newexample_ent_iob_validated_witness :
    newExampleTokLoop Vocab.init
      { orth := ["a"], spacy := [false], ent_iob := some ["B", "X"] }
      = Except.error PyErr.e985 :=
  newexample_ent_iob_validated Vocab.init
    { orth := ["a"], spacy := [false], ent_iob := some ["B", "X"] }
    ["B", "X"] (by rfl) (by decide)

/-! The legacy-bundle normalizer over open-key dicts
(_fix_legacy_dict_data, part_000 lines 287-333). -/

/-- Python values as they occur in annotation bundles: None, strings,
booleans, integers, lists, and string-keyed dicts (as association
lists in insertion order). -/
inductive PyVal where
  | pnone
  | pstr (s : String)
  | pbool (b : Bool)
  | pint (n : Int)
  | plist (xs : List PyVal)
  | pdict (kvs : List (String × PyVal))

/-- Python truthiness of a bundle value. -/
def PyVal.truthy : PyVal → Bool
  | .pnone => false
  | .pstr s => !s.isEmpty
  | .pbool b => b
  | .pint n => n != 0
  | .plist xs => !xs.isEmpty
  | .pdict kvs => !kvs.isEmpty

/-- Python dict lookup (Option.none when the key is absent). -/
def dget (d : List (String × PyVal)) (k : String) : Option PyVal :=
  (d.find? fun p => p.1 == k).map Prod.snd

/-- Python dict.get with a default. -/
def dgetD (d : List (String × PyVal)) (k : String) (dflt : PyVal) : PyVal :=
  (dget d k).getD dflt

/-- Python dict item assignment: an existing key is updated in place,
a new key is appended. -/
def dset (d : List (String × PyVal)) (k : String) (v : PyVal) : List (String × PyVal) :=
  if (d.find? fun p => p.1 == k).isSome then
    d.map fun p => if p.1 == k then (k, v) else p
  else d ++ [(k, v)]

/-- Python item assignment on an arbitrary value: only dicts accept
it, everything else raises TypeError. -/
def pySetItem (v : PyVal) (k : String) (val : PyVal) : Except PyErr PyVal :=
  match v with
  | .pdict d => .ok (.pdict (dset d k val))
  | _ => .error PyErr.typeError

/-- Python .items(): only dicts have it; None or a list raise
AttributeError. -/
def pyItems : PyVal → Except PyErr (List (String × PyVal))
  | .pdict d => .ok d
  | _ => .error PyErr.attrError

/-- Python dict item access d[k]: KeyError when absent. -/
def dGetItem (d : List (String × PyVal)) (k : String) : Except PyErr PyVal :=
  match dget d k with
  | some v => .ok v
  | none => .error (PyErr.keyError k)

/-- Python dict.pop(k): the dict without the key. -/
def dErase (d : List (String × PyVal)) (k : String) : List (String × PyVal) :=
  d.filter fun p => !(p.1 == k)

/-- The hoisting loop of _fix_legacy_dict_data (part_000 lines
290-301): keys with falsy values are skipped entirely; the container
keys and ids pass; cats and links go to the doc dict; ner and entities
go to the doc dict under entities; every other truthy key is stored
into the token dict.  Item assignment on a non-dict container value
raises TypeError. -/
def hoistLoop : List (String × PyVal) → PyVal → PyVal → Except PyErr (PyVal × PyVal)
  | [], td, dd => .ok (td, dd)
  | (k, v) :: rest, td, dd =>
    if v.truthy then
      if k == "token_annotation" || k == "doc_annotation" then hoistLoop rest td dd
      else if k == "ids" then hoistLoop rest td dd
      else if k == "cats" || k == "links" then
        match pySetItem dd k v with
        | .error e => .error e
        | .ok dd2 => hoistLoop rest td dd2
      else if k == "ner" || k == "entities" then
        match pySetItem dd "entities" v with
        | .error e => .error e
        | .ok dd2 => hoistLoop rest td dd2
      else
        match pySetItem td k v with
        | .error e => .error e
        | .ok td2 => hoistLoop rest td2 dd
    else hoistLoop rest td dd

/-- The fixed legacy key remap table of _fix_legacy_dict_data. -/
def remapping : List (String × String) :=
  [("words", "ORTH"), ("tags", "TAG"), ("pos", "POS"), ("lemmas", "LEMMA"),
   ("deps", "DEP"), ("heads", "HEAD"), ("sent_starts", "SENT_START"),
   ("morphs", "MORPH"), ("spaces", "SPACY")]

/-- The remap loop (part_000 lines 314-322): text, ids and brackets
are dropped; remapped keys are stored under their canonical names; any
other key raises the unknown-key error E983 naming the key. -/
def remapLoop (acc : List (String × PyVal)) :
    List (String × PyVal) → Except PyErr (List (String × PyVal))
  | [] => .ok acc
  | (k, v) :: rest =>
    if k == "text" || k == "ids" || k == "brackets" then remapLoop acc rest
    else
      match remapping.find? (fun p => p.1 == k) with
      | some p => remapLoop (dset acc p.2 v) rest
      | none => .error (PyErr.keyError k)

/-- Python len() over bundle values: TypeError on values without a
length. -/
def pyLen : PyVal → Except PyErr Nat
  | .pstr s => .ok s.length
  | .plist xs => .ok xs.length
  | .pdict d => .ok d.length
  | _ => .error PyErr.typeError

/-- all(value is None for value in v): a list checks its elements, a
string yields characters and a dict yields string keys (neither is
ever None, so only emptiness makes the test hold); everything else
does not iterate. -/
def pyAllNone : PyVal → Except PyErr Bool
  | .plist xs => .ok (xs.all fun x => match x with | .pnone => true | _ => false)
  | .pstr s => .ok s.isEmpty
  | .pdict d => .ok d.isEmpty
  | _ => .error PyErr.typeError

/-- _has_field (part_000 lines 335-345): a field is present iff its
key exists, its value is not None, has nonzero length, and not all of
its elements are None. -/
def _has_field (annot : List (String × PyVal)) (field : String) : Except PyErr Bool :=
  match dget annot field with
  | none => .ok false
  | some .pnone => .ok false
  | some v =>
    match pyLen v with
    | .error e => .error e
    | .ok n =>
      if n == 0 then .ok false
      else
        match pyAllNone v with
        | .error e => .error e
        | .ok b => .ok !b

/-- The scanning loop of _guess_spaces (part_000 lines 402-417): a
word not found from the cursor on conservatively gets a trailing space
and leaves the cursor; a found word advances the cursor past it and
gets a trailing space iff the character right after it is a space. -/
def guessSpacesGo (text : List Char) : Nat → List (List Char) → List Bool
  | _, [] => []
  | pos, w :: ws =>
    match findSub w (text.drop pos) with
    | none => true :: guessSpacesGo text pos ws
    | some i =>
      let pos2 := pos + i + w.length
      (decide (pos2 < text.length) && (text.getD pos2 ' ' == ' '))
        :: guessSpacesGo text pos2 ws

/-- _guess_spaces over a text and its words. -/
def _guess_spaces (text : String) (words : List String) : List Bool :=
  guessSpacesGo text.data 0 (words.map String.data)

/-- Conversion of a bundle value to the string the source slices (a
non-string raises inside the string operations; modelled up front). -/
def asStr : PyVal → Except PyErr String
  | .pstr s => .ok s
  | _ => .error PyErr.typeError

/-- Conversion of a list of bundle values to strings. -/
def asStrListGo : List PyVal → Except PyErr (List String)
  | [] => .ok []
  | x :: xs =>
    match asStr x with
    | .error e => .error e
    | .ok s =>
      match asStrListGo xs with
      | .error e => .error e
      | .ok rest => .ok (s :: rest)

/-- Conversion of a bundle value to a list of strings. -/
def asStrList : PyVal → Except PyErr (List String)
  | .plist xs => asStrListGo xs
  | _ => .error PyErr.typeError

/-- The raw-text read of _fix_legacy_dict_data (line 323):
example_dict.get with the raw key as eagerly evaluated default. -/
def textRead (d : List (String × PyVal)) : PyVal :=
  match dget d "text" with
  | some v => v
  | none =>
    match dget d "raw" with
    | some v => v
    | none => .pnone

/-- The SPACY guessing step (part_000 lines 324-325): when the raw
text is truthy and SPACY is not a filled field, SPACY is derived from
the text and the ORTH words (KeyError when ORTH is absent). -/
def spacyGuessStep (textv : PyVal) (token_dict : List (String × PyVal)) :
    Except PyErr (List (String × PyVal)) :=
  if textv.truthy then
    match _has_field token_dict "SPACY" with
    | .error e => .error e
    | .ok true => .ok token_dict
    | .ok false =>
      match asStr textv with
      | .error e => .error e
      | .ok t =>
        match dGetItem token_dict "ORTH" with
        | .error e => .error e
        | .ok orthv =>
          match asStrList orthv with
          | .error e => .error e
          | .ok ws =>
            .ok (dset token_dict "SPACY" (.plist ((_guess_spaces t ws).map .pbool)))
  else .ok token_dict

/-- The HEAD and SENT_START conflict rule (part_000 lines 326-329):
when both are present, SENT_START is popped (the warning is a
no-op in this model). -/
def headPop (td : List (String × PyVal)) : List (String × PyVal) :=
  if (dget td "HEAD").isSome && (dget td "SENT_START").isSome then dErase td "SENT_START"
  else td

/-- The tail of _fix_legacy_dict_data after the hoisting loop: items
of the token container (AttributeError when it is not a dict), remap,
SPACY guess, conflict pop, and assembly of the canonical bundle. -/
def fixLegacyRest (textv : PyVal) (pr : PyVal × PyVal) :
    Except PyErr (List (String × PyVal)) :=
  match pyItems pr.1 with
  | .error e => .error e
  | .ok old_token_dict =>
    match remapLoop [] old_token_dict with
    | .error e => .error e
    | .ok token_dict =>
      match spacyGuessStep textv token_dict with
      | .error e => .error e
      | .ok token_dict2 =>
        .ok [("token_annotation", .pdict (headPop token_dict2)),
             ("doc_annotation", pr.2)]

/-- _fix_legacy_dict_data (part_000 lines 287-333): the two container
values are read first (an absent key defaults to an empty dict; a
present falsy value such as None is kept as is), the top-level keys
are hoisted, and the tail steps rebuild the canonical bundle. -/
def _fix_legacy_dict_data (example_dict : List (String × PyVal)) :
    Except PyErr (List (String × PyVal)) :=
  match hoistLoop example_dict
      (dgetD example_dict "token_annotation" (.pdict []))
      (dgetD example_dict "doc_annotation" (.pdict [])) with
  | .error e => .error e
  | .ok pr => fixLegacyRest (textRead example_dict) pr

/-- Keys with top-level meaning in the normalizer: the containers, the
pass keys, the doc routes, the raw text keys, brackets (dropped in the
remap loop), and the remapped token keys. -/
def knownTopKeys : List String :=
  ["token_annotation", "doc_annotation", "ids", "cats", "links", "ner", "entities",
   "text", "raw", "brackets"] ++ remapping.map Prod.fst

/-! Helper lemmas about the legacy normalizer. -/

theorem find?_skip {α : Type} (f : α → Bool) (x : α) (hx : f x = false) :
    ∀ (l₁ l₂ : List α), (l₁ ++ x :: l₂).find? f = (l₁ ++ l₂).find? f := by
  intro l₁
  induction l₁ with
  | nil =>
    intro l₂
    simp only [List.nil_append]
    exact List.find?_cons_of_neg _ (by rw [hx]; exact Bool.false_ne_true)
  | cons a l₁ ih =>
    intro l₂
    simp only [List.cons_append]
    cases ha : f a with
    | true =>
      rw [List.find?_cons_of_pos _ ha, List.find?_cons_of_pos _ ha]
    | false =>
      rw [List.find?_cons_of_neg _ (by rw [ha]; exact Bool.false_ne_true),
        List.find?_cons_of_neg _ (by rw [ha]; exact Bool.false_ne_true)]
      exact ih l₂

theorem dget_skip (k key : String) (v : PyVal) (hne : (k == key) = false)
    (d₁ d₂ : List (String × PyVal)) :
    dget (d₁ ++ (k, v) :: d₂) key = dget (d₁ ++ d₂) key := by
  rw [dget, dget, find?_skip (fun p => p.1 == key) (k, v) hne d₁ d₂]

theorem dgetD_skip (k key : String) (v dflt : PyVal) (hne : (k == key) = false)
    (d₁ d₂ : List (String × PyVal)) :
    dgetD (d₁ ++ (k, v) :: d₂) key dflt = dgetD (d₁ ++ d₂) key dflt := by
  rw [dgetD, dgetD, dget_skip k key v hne d₁ d₂]

theorem textRead_skip (k : String) (v : PyVal) (ht : (k == "text") = false)
    (hr : (k == "raw") = false) (d₁ d₂ : List (String × PyVal)) :
    textRead (d₁ ++ (k, v) :: d₂) = textRead (d₁ ++ d₂) := by
  rw [textRead, textRead, dget_skip k "text" v ht d₁ d₂, dget_skip k "raw" v hr d₁ d₂]

theorem hoistLoop_skip_falsy (k : String) (v : PyVal) (hv : v.truthy = false) :
    ∀ (d₁ d₂ : List (String × PyVal)) (td dd : PyVal),
      hoistLoop (d₁ ++ (k, v) :: d₂) td dd = hoistLoop (d₁ ++ d₂) td dd := by
  intro d₁
  induction d₁ with
  | nil =>
    intro d₂ td dd
    simp only [List.nil_append]
    rw [hoistLoop, hv]
    simp
  | cons p d₁ ih =>
    intro d₂ td dd
    obtain ⟨k1, v1⟩ := p
    simp only [List.cons_append]
    rw [hoistLoop]
    conv_rhs => rw [hoistLoop]
    by_cases ht : v1.truthy = true
    · rw [if_pos ht, if_pos ht]
      by_cases h1 : (k1 == "token_annotation" || k1 == "doc_annotation") = true
      · rw [if_pos h1, if_pos h1]; exact ih d₂ td dd
      · rw [if_neg h1, if_neg h1]
        by_cases h2 : (k1 == "ids") = true
        · rw [if_pos h2, if_pos h2]; exact ih d₂ td dd
        · rw [if_neg h2, if_neg h2]
          by_cases h3 : (k1 == "cats" || k1 == "links") = true
          · rw [if_pos h3, if_pos h3]
            cases hps : pySetItem dd k1 v1 with
            | error e => rfl
            | ok dd2 => exact ih d₂ td dd2
          · rw [if_neg h3, if_neg h3]
            by_cases h4 : (k1 == "ner" || k1 == "entities") = true
            · rw [if_pos h4, if_pos h4]
              cases hps : pySetItem dd "entities" v1 with
              | error e => rfl
              | ok dd2 => exact ih d₂ td dd2
            · rw [if_neg h4, if_neg h4]
              cases hps : pySetItem td k1 v1 with
              | error e => rfl
              | ok td2 => exact ih d₂ td2 dd
    · rw [if_neg ht, if_neg ht]; exact ih d₂ td dd

theorem hoist_singleton_unknown (k : String) (v2 : PyVal)
    (e1 : (k == "token_annotation") = false) (e2 : (k == "doc_annotation") = false)
    (e3 : (k == "ids") = false) (e4 : (k == "cats") = false)
    (e5 : (k == "links") = false) (e6 : (k == "ner") = false)
    (e7 : (k == "entities") = false) (hv2 : v2.truthy = true) :
    hoistLoop [(k, v2)] (.pdict []) (.pdict []) = .ok (.pdict [(k, v2)], .pdict []) := by
  rw [hoistLoop, if_pos hv2]
  rw [if_neg (by rw [e1, e2]; exact Bool.false_ne_true)]
  rw [if_neg (by rw [e3]; exact Bool.false_ne_true)]
  rw [if_neg (by rw [e4, e5]; exact Bool.false_ne_true)]
  rw [if_neg (by rw [e6, e7]; exact Bool.false_ne_true)]
  simp [pySetItem, dset, hoistLoop]

theorem fixLegacy_unknown_aux (k : String) (v2 : PyVal)
    (hk : ∀ s ∈ knownTopKeys, k ≠ s) (hv2 : v2.truthy = true) :
    _fix_legacy_dict_data [(k, v2)] = .error (PyErr.keyError k) := by
  have e0 : ∀ s ∈ knownTopKeys, (k == s) = false := fun s hs =>
    beq_eq_false_iff_ne.mpr (hk s hs)
  have e1 := e0 "token_annotation" (by decide)
  have e2 := e0 "doc_annotation" (by decide)
  have e3 := e0 "ids" (by decide)
  have e4 := e0 "cats" (by decide)
  have e5 := e0 "links" (by decide)
  have e6 := e0 "ner" (by decide)
  have e7 := e0 "entities" (by decide)
  have e8 := e0 "text" (by decide)
  have e9 := e0 "raw" (by decide)
  have e10 := e0 "brackets" (by decide)
  have hfind : remapping.find? (fun p => p.1 == k) = none := by
    rw [List.find?_eq_none]
    intro p hp
    have hne : k ≠ p.1 := hk p.1 (by
      rw [knownTopKeys, List.mem_append]
      right
      exact List.mem_map_of_mem Prod.fst hp)
    rw [Bool.not_eq_true, beq_eq_false_iff_ne]
    exact fun he => hne he.symm
  rw [_fix_legacy_dict_data]
  have hta : dgetD [(k, v2)] "token_annotation" (.pdict []) = .pdict [] := by
    rw [dgetD, dget, List.find?_cons_of_neg _ (by rw [e1]; exact Bool.false_ne_true),
      List.find?_nil]
    rfl
  have hda : dgetD [(k, v2)] "doc_annotation" (.pdict []) = .pdict [] := by
    rw [dgetD, dget, List.find?_cons_of_neg _ (by rw [e2]; exact Bool.false_ne_true),
      List.find?_nil]
    rfl
  rw [hta, hda, hoist_singleton_unknown k v2 e1 e2 e3 e4 e5 e6 e7 hv2]
  have hrem : remapLoop [] [(k, v2)] = .error (PyErr.keyError k) := by
    rw [remapLoop]
    rw [if_neg (by rw [e8, e3, e10]; exact Bool.false_ne_true)]
    rw [hfind]
  simp [fixLegacyRest, pyItems, hrem]

/-- C9 counterexample: the top-level key token_annotation with the
falsy value None is not silently discarded: the container value is
read by dict.get before the truthiness filter ever runs, and the remap
step then crashes with AttributeError on None.items(), so the call
fails instead of dropping the key. -/
theorem fix_legacy_token_annot_none_crashes :
    _fix_legacy_dict_data [("token_annotation", PyVal.pnone)] = .error PyErr.attrError
    ∧ PyVal.truthy PyVal.pnone = false :=
  ⟨rfl, rfl⟩

/-- C9 (amended): in _fix_legacy_dict_data every top-level key other
than the container keys token_annotation and doc_annotation and the
raw-text keys text and raw is, when its value is falsy, silently
discarded by the hoisting loop: the normalizer behaves exactly as if
the key were absent, so nothing is copied and no unknown-key error is
raised; the same unknown key with a truthy value is hoisted into the
token dict and raises the unknown-key error E983 naming it.  The
container keys are read before the truthiness filter (the
counterexample crashes on a None token_annotation), and a present
falsy text key still masks raw. -/
theorem fix_legacy_falsy_discarded (d₁ d₂ : List (String × PyVal)) (k : String)
    (v v2 : PyVal)
    (hk4 : ∀ s ∈ (["token_annotation", "doc_annotation", "text", "raw"] : List String), k ≠ s)
    (hv : v.truthy = false) :
    _fix_legacy_dict_data (d₁ ++ (k, v) :: d₂) = _fix_legacy_dict_data (d₁ ++ d₂)
    ∧ ((∀ s ∈ knownTopKeys, k ≠ s) → v2.truthy = true →
        _fix_legacy_dict_data [(k, v2)] = .error (PyErr.keyError k)) := by
  constructor
  · have e1 : (k == "token_annotation") = false :=
      beq_eq_false_iff_ne.mpr (hk4 "token_annotation" (by decide))
    have e2 : (k == "doc_annotation") = false :=
      beq_eq_false_iff_ne.mpr (hk4 "doc_annotation" (by decide))
    have e3 : (k == "text") = false := beq_eq_false_iff_ne.mpr (hk4 "text" (by decide))
    have e4 : (k == "raw") = false := beq_eq_false_iff_ne.mpr (hk4 "raw" (by decide))
    simp only [_fix_legacy_dict_data]
    rw [dgetD_skip k "token_annotation" v (.pdict []) e1 d₁ d₂,
      dgetD_skip k "doc_annotation" v (.pdict []) e2 d₁ d₂,
      hoistLoop_skip_falsy k v hv d₁ d₂,
      textRead_skip k v e3 e4 d₁ d₂]
  · intro hk hv2
    exact fixLegacy_unknown_aux k v2 hk hv2

/-- Witness for the amended C9 theorem: the unknown key foo with the
falsy value None behaves as if absent, while foo with a truthy string
raises the unknown-key error naming foo. -/
theorem fix_legacy_falsy_discarded_witness :
    _fix_legacy_dict_data [("foo", PyVal.pnone)] = _fix_legacy_dict_data []
    ∧ _fix_legacy_dict_data [("foo", PyVal.pstr "x")] = .error (PyErr.keyError "foo") := by
  have h := fix_legacy_falsy_discarded [] [] "foo" PyVal.pnone (PyVal.pstr "x")
    (by decide) rfl
  exact ⟨h.1, h.2 (by decide) rfl⟩

/-! The reference document and the encode-then-export round trip
(annotations2doc, part_000 lines 19-29, and Example.to_dict, lines
157-175). -/

/-- Modelled from the spec (section 3 data model; the Doc class is
outside src): a reference document as annotations2doc realises it,
the tokenization plus per-token integer attribute columns (0 when
unset; HEAD keeps the stored relative offsets) and the document
categories.  The vocab is carried along because the document reads its
strings from it. -/
structure RefDoc where
  voc : Vocab
  words : List String
  spaces : List Bool
  tagc : List Int
  posc : List Int
  lemc : List Int
  depc : List Int
  morphc : List Int
  headc : List Int
  sentc : List Int
  entIobc : List Int
  entTypec : List Int
  entKbc : List Int
  cats : List (String × Rat)
  deriving DecidableEq

/-- Doc(vocab, words=..., spaces=...): all attribute columns unset. -/
def mkDoc (voc : Vocab) (words : List String) (spaces : List Bool) : RefDoc :=
  { voc := voc, words := words, spaces := spaces,
    tagc := words.map fun _ => 0, posc := words.map fun _ => 0,
    lemc := words.map fun _ => 0, depc := words.map fun _ => 0,
    morphc := words.map fun _ => 0, headc := words.map fun _ => 0,
    sentc := words.map fun _ => 0, entIobc := words.map fun _ => 0,
    entTypec := words.map fun _ => 0, entKbc := words.map fun _ => 0,
    cats := [] }

/-- Modelled from the spec (sections 4.2 and 6): one attribute column
assignment of Doc.from_array; the uint64 encoding of the signed values
through numpy and back is the identity in this model. -/
def setCol (d : RefDoc) (a : String) (c : List Int) : RefDoc :=
  if a == "TAG" then { d with tagc := c }
  else if a == "POS" then { d with posc := c }
  else if a == "LEMMA" then { d with lemc := c }
  else if a == "DEP" then { d with depc := c }
  else if a == "MORPH" then { d with morphc := c }
  else if a == "HEAD" then { d with headc := c }
  else if a == "SENT_START" then { d with sentc := c }
  else if a == "ENT_IOB" then { d with entIobc := c }
  else if a == "ENT_TYPE" then { d with entTypec := c }
  else if a == "ENT_KB_ID" then { d with entKbc := c }
  else d

/-- Doc.from_array over the attribute list and the columns. -/
def fromArray (d : RefDoc) : List String → List (List Int) → RefDoc
  | [], _ => d
  | _, [] => d
  | a :: as2, c :: cs => fromArray (setCol d a c) as2 cs

/-- String readback of an interned id (vocab.strings lookup; the unset
id 0 reads back the empty string of the fresh store). -/
def strOf (voc : Vocab) (i : Int) : String := (voc.strings.get i.toNat).getD ""

/-- Morphology readback of an interned id. -/
def morphOf (voc : Vocab) (i : Int) : String := (voc.morph.get i.toNat).getD ""

/-- Length of the leading run of IOB code 1 (inside an entity). -/
def entRunLen : List Int → Nat
  | 1 :: rest => 1 + entRunLen rest
  | _ => 0

/-- Modelled from the spec (section 4.3; doc.ents is outside src): the
entity spans of a document read off its IOB codes, code 3 beginning an
entity and following 1 codes continuing it. -/
def docEntsFrom : Nat → List Int → List (Nat × Nat)
  | _, [] => []
  | i, c :: rest =>
    if c == 3 then
      (i, i + 1 + entRunLen rest) :: docEntsFrom (i + 1 + entRunLen rest) (rest.drop (entRunLen rest))
    else docEntsFrom (i + 1) rest
  termination_by _ cs => cs.length
  decreasing_by
    · simp only [List.length_drop, List.length_cons]
      omega
    · simp only [List.length_cons]
      omega

/-- Modelled from the spec (section 4.3): biluo_tags_from_doc exports
per-token BILUO tags from the document entities; a token with an
explicit outside code exports O, a token with no entity information at
all exports the no-gold-label dash. -/
def biluoTagsFromDoc (d : RefDoc) : List String :=
  let ents := docEntsFrom 0 d.entIobc
  (List.range d.words.length).map fun i =>
    match ents.find? (fun r => r.1 ≤ i && i < r.2) with
    | some r =>
      let ty := strOf d.voc (d.entTypec.getD i 0)
      if r.2 = r.1 + 1 then "U-" ++ ty
      else if i = r.1 then "B-" ++ ty
      else if i = r.2 - 1 then "L-" ++ ty
      else "I-" ++ ty
    | none => if d.entIobc.getD i 0 == 2 then "O" else "-"

/-- _links_to_dict (part_000 lines 177-182): entities with a nonempty
kb id export a weight-1.0 link over their character span. -/
def linksToDict (d : RefDoc) : List ((Nat × Nat) × List (String × Rat)) :=
  (docEntsFrom 0 d.entIobc).filterMap fun r =>
    let kb := strOf d.voc (d.entKbc.getD r.1 0)
    if kb == "" then none
    else
      let ranges := tokRanges (d.words.zip d.spaces)
      some (((ranges.getD r.1 (0, 0)).1, (ranges.getD (r.2 - 1) (0, 0)).2), [(kb, 1)])

/-- BILUO tag to IOB code (3 B, 1 I, 2 O, 0 unset) and type. -/
def biluoPieces (tag : String) : Int × String :=
  if tag == "O" then (2, "")
  else if tag == "-" then (0, "")
  else if tag.startsWith "B-" || tag.startsWith "U-" then (3, tag.drop 2)
  else if tag.startsWith "I-" || tag.startsWith "L-" then (1, tag.drop 2)
  else (0, "")

/-- Modelled from the spec (section 4.3; _add_entities_to_doc with the
span machinery of the Doc is outside src): offset entities are turned
into per-token tags over the already built tokenization and realised
as the IOB and interned type columns of the document. -/
def addEntitiesToDoc (d : RefDoc) (ents : List (Nat × Nat × String)) : RefDoc :=
  let tags := biluoFromOffsets (d.words.zip d.spaces) ents "O"
  let pieces := tags.map biluoPieces
  let p := internList d.voc.strings (pieces.map Prod.snd)
  let voc2 : Vocab := { strings := p.1, morph := d.voc.morph }
  { d with voc := voc2
           entIobc := pieces.map Prod.fst
           entTypec := (pieces.zip p.2).map fun q => if q.1.2 == "" then 0 else q.2 }

/-- annotations2doc (part_000 lines 19-29): encode the annotations,
build the document over ORTH and SPACY with the updated vocab, load
the columns when the array is nonempty, realise the entities when
declared, and copy the cats. -/
def annotations2doc (voc : Vocab) (tok : TokAnnot) (doc : DocAnnot) :
    Except PyErr RefDoc :=
  match _annot2array voc tok doc with
  | .error e => .error e
  | .ok (voc2, attrs, cols) =>
    let base := mkDoc voc2 tok.orth tok.spacy
    let withCols := if attrs.isEmpty then base else fromArray base attrs cols
    let withEnts :=
      match doc.entities with
      | some es => addEntitiesToDoc withCols es
      | none => withCols
    .ok { withEnts with cats := withEnts.cats ++ doc.cats }

/-- The dict shape produced by Example.to_dict: the token_annotation
group. -/
structure OutTok where
  ids : List Nat
  words : List String
  tags : List String
  lemmas : List String
  pos : List String
  morphs : List String
  heads : List Nat
  deps : List String
  sent_starts : List Int
  deriving DecidableEq

/-- The dict shape produced by Example.to_dict: the modern structured
bundle with its doc_annotation and token_annotation groups. -/
structure OutBundle where
  cats : List (String × Rat)
  entities : List String
  links : List ((Nat × Nat) × List (String × Rat))
  tok : OutTok
  deriving DecidableEq

/-- Example.to_dict (part_000 lines 157-175) reading the reference
document: ids are regenerated 1-based, string fields are read back
through the interner, heads are absolute (token index plus the stored
relative offset; an unset head points at the token itself), and
sent_starts is int(bool(t.is_sent_start)), where is_sent_start holds
iff the stored sentence value is 1. -/
def to_dict (d : RefDoc) : OutBundle :=
  { cats := d.cats
    entities := biluoTagsFromDoc d
    links := linksToDict d
    tok := {
      ids := (List.range d.words.length).map (· + 1)
      words := d.words
      tags := d.tagc.map (strOf d.voc)
      lemmas := d.lemc.map (strOf d.voc)
      pos := d.posc.map (strOf d.voc)
      morphs := d.morphc.map (morphOf d.voc)
      heads := d.headc.enum.map fun p => ((p.1 : Int) + p.2).toNat
      deps := d.depc.map (strOf d.voc)
      sent_starts := d.sentc.map fun v => if v == 1 then 1 else 0 } }

/-- A modern structured bundle in record form: the token_annotation
group under its legacy field names and the doc_annotation group.  At
the record level the fixed key remap words, tags, pos, lemmas, deps,
heads, sent_starts, morphs, spaces to ORTH, TAG, POS, LEMMA, DEP,
HEAD, SENT_START, MORPH, SPACY is the field correspondence itself; the
open-key dict normalizer is embedded separately over PyVal above. -/
structure InBundle where
  words : List String
  spaces : Option (List Bool) := none
  tags : Option (List String) := none
  pos : Option (List String) := none
  lemmas : Option (List String) := none
  deps : Option (List String) := none
  morphs : Option (List String) := none
  heads : Option (List Nat) := none
  sent_starts : Option (List Int) := none
  ids : Option (List Nat) := none
  cats : List (String × Rat) := []
  entities : Option (List (Nat × Nat × String)) := none
  links : List ((Nat × Nat) × List (String × Rat)) := []
  deriving DecidableEq

/-- Example.from_dict (part_000 lines 58-74) on a structured bundle,
building the reference document with a fresh vocab: the normalizer
rule dropping SENT_START alongside HEAD applies; ids pass through and
are dropped; a missing spaces key is fatal because from_dict computes
guessed spaces into a local that it never stores (part_000 lines
69-70), so annotations2doc then fails on the missing SPACY key. -/
def from_structured (b : InBundle) : Except PyErr RefDoc :=
  match b.spaces with
  | none => .error (PyErr.keyError "SPACY")
  | some sp =>
    annotations2doc Vocab.init
      { orth := b.words, spacy := sp, tag := b.tags, pos := b.pos, lem := b.lemmas,
        dep := b.deps, morph := b.morphs, head := b.heads,
        sent_start := if b.heads.isSome && b.sent_starts.isSome then none else b.sent_starts }
      { cats := b.cats, entities := b.entities, links := b.links }

/-- The encode-then-export round trip of C4. -/
def roundTrip (b : InBundle) : Except PyErr OutBundle :=
  match from_structured b with
  | .error e => .error e
  | .ok d => .ok (to_dict d)

/-- Equality of the export with the structured input modulo the fixed
key remap, as the claim states it: every exported group must equal the
corresponding input value, and the export may not hold keys the input
lacks.  to_dict always emits ids, heads, morphs, sent_starts, entities
and links, so an input without one of those keys compares unequal;
input entities are offset triples while exported entities are BILUO
tag strings, so as Python values they compare equal only when both are
empty. -/
def outEqIn (o : OutBundle) (b : InBundle) : Bool :=
  o.tok.words == b.words
  && b.tags == some o.tok.tags
  && b.pos == some o.tok.pos
  && b.lemmas == some o.tok.lemmas
  && b.deps == some o.tok.deps
  && b.morphs == some o.tok.morphs
  && b.heads == some o.tok.heads
  && b.sent_starts == some o.tok.sent_starts
  && b.ids == some o.tok.ids
  && b.cats == o.cats
  && b.links == o.links
  && (b.entities.getD []).isEmpty && o.entities.isEmpty

/-- Whether a bundle round-trips to a bundle equal to itself modulo
the fixed key remap. -/
def roundTripsExactly (b : InBundle) : Bool :=
  match roundTrip b with
  | .ok o => outEqIn o b
  | .error _ => false

/-! Helper lemmas about the interner and the round trip. -/

theorem StringStore.add_prefix (st : StringStore) (v : String) :
    st.strs <+: (st.add v).1.strs := by
  rw [StringStore.add]
  cases h : st.strs.findIdx? (fun s => s == v) with
  | some i => exact List.prefix_refl _
  | none => exact ⟨[v], rfl⟩

theorem StringStore.add_get (st : StringStore) (v : String) :
    (st.add v).1.get (st.add v).2 = some v := by
  rw [StringStore.add]
  cases h : st.strs.findIdx? (fun s => s == v) with
  | some i =>
    dsimp only [StringStore.get]
    obtain ⟨hlt, hp, _⟩ := List.findIdx?_eq_some_iff_getElem.mp h
    rw [List.get?_eq_getElem?, List.getElem?_eq_getElem hlt]
    exact congrArg some (eq_of_beq hp)
  | none =>
    dsimp only [StringStore.get]
    exact List.get?_concat_length st.strs v

theorem store_mono_get (s1 s2 : StringStore) (h : s1.strs <+: s2.strs) (i : Nat) (v : String)
    (hg : s1.get i = some v) : s2.get i = some v := by
  obtain ⟨t, ht⟩ := h
  rw [StringStore.get] at hg ⊢
  rw [← ht, List.get?_append]
  · exact hg
  · obtain ⟨hlt, _⟩ := List.get?_eq_some.mp hg
    exact hlt

theorem internList_front (vs : List String) : ∀ (st : StringStore),
    st.strs <+: (internList st vs).1.strs := by
  induction vs with
  | nil => intro st; exact List.prefix_refl _
  | cons v vs ih =>
    intro st
    rw [internList]
    exact (StringStore.add_prefix st v).trans (ih (st.add v).1)

theorem internList_read (vs : List String) : ∀ (st s2 : StringStore),
    (internList st vs).1.strs <+: s2.strs →
    (internList st vs).2.map (fun i => (s2.get i.toNat).getD "") = vs := by
  induction vs with
  | nil => intro st s2 _; rfl
  | cons v vs ih =>
    intro st s2 hpre
    rw [internList] at hpre ⊢
    dsimp only at hpre ⊢
    rw [List.map_cons]
    congr 1
    · have h1 : (st.add v).1.get (st.add v).2 = some v := StringStore.add_get st v
      have h2 : (st.add v).1.strs <+: (internList (st.add v).1 vs).1.strs :=
        internList_front vs _
      have h3 := store_mono_get _ s2 (h2.trans hpre) _ v h1
      show (s2.get (Int.ofNat (st.add v).2).toNat).getD "" = v
      have h4 : (Int.ofNat (st.add v).2).toNat = (st.add v).2 := rfl
      rw [h4, h3]
      rfl
    · exact ih (st.add v).1 s2 hpre

theorem map_boolize_id (ss : List Int) (h : ∀ v ∈ ss, v = 0 ∨ v = 1) :
    (ss.map fun v => if v = 1 then 1 else 0) = ss := by
  induction ss with
  | nil => rfl
  | cons a l ih =>
    rw [List.map_cons, ih fun v hv => h v (List.mem_cons_of_mem _ hv)]
    rcases h a (List.mem_cons_self _ _) with h0 | h1
    · subst h0; rfl
    · subst h1; rfl

theorem tokLoop_eval (voc : Vocab) (t : TokAnnot) (tg ps lm dp : List String) (ss : List Int)
    (htg : t.tag = some tg) (hps : t.pos = some ps) (hlm : t.lem = some lm)
    (hdp : t.dep = some dp) (hmo : t.morph = none) (hhd : t.head = none)
    (hss : t.sent_start = some ss) (hio : t.ent_iob = none) (hty : t.ent_type = none)
    (hkb : t.ent_kb_id = none) :
    annot2arrayTokLoop voc t =
      ({ strings :=
           (internList (internList (internList (internList voc.strings tg).1 ps).1 lm).1 dp).1
         morph := voc.morph },
       ["TAG", "POS", "LEMMA", "DEP", "SENT_START"],
       [(internList voc.strings tg).2,
        (internList (internList voc.strings tg).1 ps).2,
        (internList (internList (internList voc.strings tg).1 ps).1 lm).2,
        (internList (internList (internList (internList voc.strings tg).1 ps).1 lm).1 dp).2,
        ss]) := by
  simp [annot2arrayTokLoop, tokLoopStep, htg, hps, hlm, hdp, hmo, hhd, hss, hio, hty, hkb]

/-- C4 counterexample: a well-formed modern structured bundle (its
encoding succeeds, all columns consistent) whose round trip is not
equal to the input modulo the fixed key remap: to_dict regenerates
ids, heads, morphs and the entity tags from the document, so the
export holds keys and values the structured input does not. -/
theorem round_trip_not_exact :
    roundTripsExactly
      { words := ["a"], spaces := some [true], tags := some ["T"], pos := some ["P"],
        lemmas := some ["l"], deps := some ["d"], sent_starts := some [1] } = false
    ∧ exceptOk (roundTrip
      { words := ["a"], spaces := some [true], tags := some ["T"], pos := some ["P"],
        lemmas := some ["l"], deps := some ["d"], sent_starts := some [1] }) = true := by
  refine ⟨?_, ?_⟩
  · rfl
  · rfl

/-- C4 (amended): the export always has the modern structured shape
(the token_annotation and doc_annotation groups of to_dict), and for a
well-formed structured bundle carrying words, spaces, tags, pos,
lemmas, deps and sent_starts (with 0/1 values), no heads, morphs,
entities or links, the round trip through annotations2doc and to_dict
reproduces words, tags, pos, lemmas, deps, sent_starts and cats under
the fixed key remap; ids, heads, morphs, entities and links are
regenerated from the document and need not match the input, as the
counterexample shows. -/
theorem round_trip_remapped_fields (b : InBundle)
    (sp : List Bool) (tg ps lm dp : List String) (ss : List Int)
    (hsp : b.spaces = some sp) (htg : b.tags = some tg) (hps : b.pos = some ps)
    (hlm : b.lemmas = some lm) (hdp : b.deps = some dp)
    (hmo : b.morphs = none) (hhd : b.heads = none) (hss : b.sent_starts = some ss)
    (hent : b.entities = none) (hlk : b.links = [])
    (hssv : ∀ v ∈ ss, v = 0 ∨ v = 1) :
    (roundTrip b).toOption.map
        (fun o => (o.tok.words, o.tok.tags, o.tok.pos, o.tok.lemmas, o.tok.deps,
          o.tok.sent_starts, o.cats))
      = some (b.words, tg, ps, lm, dp, ss, b.cats) := by
  obtain ⟨words, spaces, tags, pos, lemmas, deps, morphs, heads, sent_starts,
    ids, cats, entities, links⟩ := b
  dsimp only at hsp htg hps hlm hdp hmo hhd hss hent hlk ⊢
  subst hsp htg hps hlm hdp hmo hhd hss hent hlk
  have h1 := tokLoop_eval Vocab.init
    { orth := words, spacy := sp, tag := some tg, pos := some ps, lem := some lm,
      dep := some dp, morph := none, head := none, sent_start := some ss }
    tg ps lm dp ss rfl rfl rfl rfl rfl rfl rfl rfl rfl rfl
  simp only [roundTrip, from_structured, annotations2doc, _annot2array, annot2arrayDocLoop,
    Option.isSome_none, Bool.false_and, Bool.and_self, ne_eq, not_true_eq_false,
    if_false, ite_false, h1, List.isEmpty_cons, Bool.false_eq_true,
    fromArray, setCol, mkDoc, to_dict, Except.toOption, Option.map_some, List.nil_append,
    Prod.mk.injEq]
  simp
  refine ⟨?_, ?_, ?_, ?_, ?_⟩
  · exact internList_read tg Vocab.init.strings _
      (((internList_front ps _).trans (internList_front lm _)).trans (internList_front dp _))
  · exact internList_read ps _ _ ((internList_front lm _).trans (internList_front dp _))
  · exact internList_read lm _ _ (internList_front dp _)
  · exact internList_read dp _ _ (List.prefix_refl _)
  · exact map_boolize_id ss hssv

/-- Witness for the amended C4 theorem at a concrete bundle. -/
theorem round_trip_remapped_fields_witness :
    (roundTrip
      { words := ["hi"], spaces := some [false], tags := some ["NN"], pos := some ["NOUN"],
        lemmas := some ["hi"], deps := some ["ROOT"], sent_starts := some [1],
        cats := [("c", (1 : Rat))] }).toOption.map
        (fun o => (o.tok.words, o.tok.tags, o.tok.pos, o.tok.lemmas, o.tok.deps,
          o.tok.sent_starts, o.cats))
      = some (["hi"], ["NN"], ["NOUN"], ["hi"], ["ROOT"], [1], [("c", (1 : Rat))]) :=
  round_trip_remapped_fields
    { words := ["hi"], spaces := some [false], tags := some ["NN"], pos := some ["NOUN"],
      lemmas := some ["hi"], deps := some ["ROOT"], sent_starts := some [1],
      cats := [("c", (1 : Rat))] }
    [false] ["NN"] ["NOUN"] ["hi"] ["ROOT"] [1]
    rfl rfl rfl rfl rfl rfl rfl rfl rfl rfl (by decide)

end Spacy
